import Mathlib

set_option linter.unusedVariables false

/-! Shallow embedding of `check_commits.py`: a patch-series checker that
resolves a commit range with `git log`, checks out each commit in turn and
runs the upstream check scripts (`devtools/check-git-log.sh`,
`devtools/test-build.sh`, `devtools/checkpatches.sh`) against it.  External
commands are modelled by an oracle world supplying each invocation's result;
every observable action (process output, command invocations, temp-dir
creation and removal) is recorded in an event trace. -/

/-- Python value as relevant here: the `num_jobs` option is an `int` when it
comes from `parser.set_defaults(num_jobs=1)` and a `str` when parsed from the
command line (`optparse` `action='store'` with no `type` stores the raw
string). -/
inductive PyVal where
  | str (s : String)
  | int (n : Int)
  | list (xs : List String)
deriving DecidableEq, Repr

/-- Python exceptions the script can raise and never catches. -/
inductive PyErr where
  | nameErr (n : String)
  | attrErr (ty a : String)
  | typeErr (msg : String)
  | osErr
deriving DecidableEq, Repr

/-- How a process run ends early: `sys.exit(code)`, or an uncaught Python
exception (which makes the interpreter exit with status 1). -/
inductive Term where
  | exited (code : Nat)
  | uncaught (e : PyErr)
deriving DecidableEq, Repr

/-- Result of one `subprocess` invocation, as reported by the oracle world:
exit status 0 with captured output, a nonzero status (`CalledProcessError`)
with captured output, or an `OSError` (the command could not be launched at
all). -/
inductive CmdResult where
  | ok (o : String)
  | fail (returncode : Int) (o : String)
  | oserror
deriving DecidableEq, Repr

/-- Result of one `shutil.rmtree` call: success, or `OSError` with an errno. -/
inductive RmRes where
  | ok
  | err (errno : Nat)
deriving DecidableEq, Repr

/-- `errno.ENOENT`. -/
def ENOENT : Nat := 2

/-- Observable events of a run, in order. -/
inductive Event where
  | out (msg : String)
  | err (msg : String)
  | invoke (cmd : List String) (res : CmdResult)
  | mkdtempE (dir : String)
  | rmtreeE (dir : String) (res : RmRes)
deriving DecidableEq, Repr

/-- Execution state: the oracle world (one result per external invocation,
indexed by invocation count; one result per `rmtree` call), whether
`os.chdir(repo_dir)` fails, the invocation counters, and the event trace. -/
structure ExecState where
  world : Nat → List String → CmdResult
  rmWorld : Nat → String → RmRes
  chdirFails : Bool
  counter : Nat
  rmCounter : Nat
  tmpCounter : Nat
  trace : List Event

/-- One step result: either normal completion or a process termination. -/
abbrev StepRes := Except Term Unit × ExecState

def emitOut (s : ExecState) (m : String) : ExecState :=
  { s with trace := s.trace ++ [Event.out m] }

def emitErr (s : ExecState) (m : String) : ExecState :=
  { s with trace := s.trace ++ [Event.err m] }

/-- Run one external command: consult the world at the current invocation
index, record the invocation, bump the counter. -/
def call (s : ExecState) (cmd : List String) : CmdResult × ExecState :=
  let r := s.world s.counter cmd
  (r, { s with counter := s.counter + 1, trace := s.trace ++ [Event.invoke cmd r] })

/-- `tempfile.mkdtemp()`: returns a fresh directory name (names are opaque in
the source; we derive them from a counter) and records the creation. -/
def mkdtemp (s : ExecState) : String × ExecState :=
  let d := "/tmp/tmp" ++ toString s.tmpCounter
  (d, { s with tmpCounter := s.tmpCounter + 1, trace := s.trace ++ [Event.mkdtempE d] })

/-- `shutil.rmtree(d)`: consult the rm world, record the call. -/
def rmtreeCall (s : ExecState) (d : String) : RmRes × ExecState :=
  let r := s.rmWorld s.rmCounter d
  (r, { s with rmCounter := s.rmCounter + 1, trace := s.trace ++ [Event.rmtreeE d r] })

/-- Sequencing with early termination (a raised `SystemExit` or other
exception propagates past the rest of the pipeline). -/
def bindStep {α : Type} (r : Except Term α × ExecState) (g : α → ExecState → StepRes) : StepRes :=
  match r with
  | (.error t, s) => (.error t, s)
  | (.ok a, s) => g a s

def joinSpace (cmd : List String) : String := String.intercalate " " cmd

/-- Python string concatenation `a + v` with `a` a `str`: succeeds only when
`v` is also a `str`; `str + int` and `str + list` raise `TypeError`. -/
def pyConcat (a : String) : PyVal → Except PyErr String
  | .str s => .ok (a ++ s)
  | .int _ => .error (.typeErr "cannot concatenate str and int objects")
  | .list _ => .error (.typeErr "cannot concatenate str and list objects")

/-- Whitespace characters of Python's `\s` (`str.split`/`rstrip` whitespace). -/
def pySpace (c : Char) : Bool :=
  c = ' ' || c = '\t' || c = '\n' || c = '\x0b' || c = '\x0c' || c = '\r'

/-- Python `str.rstrip()`: drop trailing whitespace. -/
def pyRstrip (s : String) : String :=
  String.mk ((s.toList.reverse.dropWhile pySpace).reverse)

/-- Split a character list at newlines (Python line structure for the
`re.MULTILINE` anchors `^`/`$`). -/
def splitNl : List Char → List (List Char)
  | [] => [[]]
  | c :: cs =>
    if c = '\n' then [] :: splitNl cs
    else
      match splitNl cs with
      | l :: ls => (c :: l) :: ls
      | [] => [[c]]

/-- `re.findall(r'^(?P<hash>\S+)\s(?P<sub>.*)$', out, re.MULTILINE)` on the
line decomposition of `out`.  At each line start the greedy `\S+` takes the
maximal nonspace prefix; the following `\s` must match the next character —
a space inside the line, or the terminating newline when the whole line is
nonspace (in which case `.*$` matches the next line and scanning resumes
after it). -/
def findallLines : List (List Char) → List (String × String)
  | [] => []
  | l :: ls =>
    let tok := l.takeWhile (fun c => !pySpace c)
    let rest := l.dropWhile (fun c => !pySpace c)
    if tok.isEmpty then findallLines ls
    else
      match rest with
      | c :: rest2 => (String.mk tok, String.mk rest2) :: findallLines ls
      | [] =>
        match ls with
        | [] => []
        | l2 :: ls2 => (String.mk tok, String.mk l2) :: findallLines ls2

/-- The full `re.findall` over the captured output string. -/
def findallLog (o : String) : List (String × String) :=
  findallLines (splitNl o.toList)

/-- The `git log` command built by `get_commit_list`. -/
def gitLogCmd (start_ref end_ref : String) : List String :=
  ["git", "log", "--pretty=format:%H %s", start_ref ++ ".." ++ end_ref]

/-- Name lookup for the error-message expression in `get_commit_list`'s
`except` branch.  The string-valued names in scope there are the two
parameters; the other bound names (locals `cmd`, `fnull`, `e`, and the module
globals `optparse`, `os`, `subprocess`, `sys`, `re`, `tempfile`, `shutil`,
`errno`, the six function names, `opts`) are neither `start` nor `end`, so
they cannot resolve the lookups performed there. -/
def getCommitListScope (start_ref end_ref : String) : List (String × String) :=
  [("start_ref", start_ref), ("end_ref", end_ref)]

def resolveName (scope : List (String × String)) (n : String) : Except PyErr String :=
  match scope.find? (fun p => p.1 == n) with
  | some p => .ok p.2
  | none => .error (.nameErr n)

/-- `get_commit_list(start_ref, end_ref)`: run the log query; on success parse
the output and reverse it; on `CalledProcessError` the handler evaluates a
message referring to `start` and `end` (NameError: the parameters are named
`start_ref`/`end_ref`), which would otherwise be written to stderr followed by
`sys.exit(1)`; a launch `OSError` is not caught. -/
def get_commit_list (start_ref end_ref : String) (s : ExecState) :
    Except Term (List (String × String)) × ExecState :=
  match call s (gitLogCmd start_ref end_ref) with
  | (.ok o, s) => (.ok ((findallLog o).reverse), s)
  | (.fail _ _, s) =>
    match resolveName (getCommitListScope start_ref end_ref) "start" with
    | .error e => (.error (.uncaught e), s)
    | .ok v1 =>
      match resolveName (getCommitListScope start_ref end_ref) "end" with
      | .error e => (.error (.uncaught e), s)
      | .ok v2 =>
        (.error (.exited 1),
          emitErr s ("Error: failed to get list of commits between \"" ++ v1 ++
            "\" and \"" ++ v2 ++ "\".\n"))
  | (.oserror, s) => (.error (.uncaught .osErr), s)

def checkGitLogCmd : List String := ["devtools/check-git-log.sh", "-1"]

/-- `check_git_log()`: announce, run the script; a nonzero exit prints
`Fail.` and the captured output and exits only under `exit_on_err`; an
`OSError` (cannot launch the script) always exits with status 1. -/
def check_git_log (opts_exit_on_err : Bool) (s : ExecState) : StepRes :=
  let s := emitOut s ("Running: \"" ++ joinSpace checkGitLogCmd ++ "\"... ")
  match call s checkGitLogCmd with
  | (.ok _, s) => (.ok (), emitOut s "Passed.\n")
  | (.fail _ o, s) =>
    let s := emitOut s "Fail.\n"
    let s := emitErr s ("Output:" ++ o ++ "\n")
    if opts_exit_on_err then (.error (.exited 1), s) else (.ok (), s)
  | (.oserror, s) =>
    let s := emitOut s "\n"
    let s := emitErr s
      "Error: Couldn't run check-git-log.sh. Are you in the root dir of the repo?\n"
    (.error (.exited 1), s)

/-- The `devtools/test-build.sh` command for one configuration. -/
def testBuildCmd (jarg build_type arch_str : String) : List String :=
  ["devtools/test-build.sh", jarg] ++ (if build_type = "short" then ["-s"] else [])
    ++ [arch_str]

/-- `run_test_build(build_type, arch_str, num_jobs)`: builds the command
(`'-j' + num_jobs` — a `TypeError` when `num_jobs` is the integer default),
announces it, runs it; a nonzero exit prints `Failed.` plus output and exits
only under the global `opts.exit_on_err`; a launch `OSError` is not caught
here and propagates. -/
def run_test_build (opts_exit_on_err : Bool) (build_type arch_str : String)
    (num_jobs : PyVal) (s : ExecState) : StepRes :=
  match pyConcat "-j" num_jobs with
  | .error e => (.error (.uncaught e), s)
  | .ok jarg =>
    let cmd := testBuildCmd jarg build_type arch_str
    let s := emitOut s ("Running: \"" ++ joinSpace cmd ++ "\"... ")
    match call s cmd with
    | (.ok _, s) => (.ok (), emitOut s "Passed.\n")
    | (.fail _ o, s) =>
      let s := emitOut s "Failed.\n"
      let s := emitErr s ("Output:\n" ++ o ++ "\n")
      if opts_exit_on_err then (.error (.exited 1), s) else (.ok (), s)
    | (.oserror, s) => (.error (.uncaught .osErr), s)

/-- `check_builds(compilers, build_type, num_jobs, exit_on_err)`: for each
compiler, run the default-linkage build then the `+shared` build.  (The
`exit_on_err` parameter is received but unused in the source;
`run_test_build` reads the global option.) -/
def check_builds (opts_exit_on_err : Bool) (compilers : List String)
    (build_type : String) (num_jobs : PyVal) (exit_on_err : Bool)
    (s : ExecState) : StepRes :=
  match compilers with
  | [] => (.ok (), s)
  | compiler :: rest =>
    let arch_str := "x86_64-native-linuxapp-" ++ compiler
    bindStep (run_test_build opts_exit_on_err build_type arch_str num_jobs s) fun _ s =>
    bindStep (run_test_build opts_exit_on_err build_type (arch_str ++ "+shared") num_jobs s) fun _ s =>
    check_builds opts_exit_on_err rest build_type num_jobs exit_on_err s

def checkoutCmd (h : String) : List String := ["git", "checkout", h]

/-- Attribute lookup on a `subprocess.CalledProcessError` instance: the class
defines exactly `returncode`, `cmd` and `output`; any other attribute access
raises `AttributeError`. -/
def cpeGetattr (returncode : Int) (cmd : List String) (o : String) :
    String → Except PyErr PyVal
  | "returncode" => .ok (.int returncode)
  | "cmd" => .ok (.list cmd)
  | "output" => .ok (.str o)
  | a => .error (.attrErr "CalledProcessError" a)

/-- `checkout_commit_with_hash(h)`: run `git checkout h`; on
`CalledProcessError` the handler evaluates `e.strerror` while building its
message (AttributeError: `CalledProcessError` has no `strerror`), which would
otherwise be written to stderr followed by `sys.exit(1)`; a launch `OSError`
is not caught. -/
def checkout_commit_with_hash (h : String) (s : ExecState) : StepRes :=
  match call s (checkoutCmd h) with
  | (.ok _, s) => (.ok (), s)
  | (.fail rc o, s) =>
    match cpeGetattr rc (checkoutCmd h) o "strerror" with
    | .error e => (.error (.uncaught e), s)
    | .ok v =>
      match pyConcat ("Error: could not checkout commit with hash " ++ h ++ ": ") v with
      | .error e => (.error (.uncaught e), s)
      | .ok msg => (.error (.exited 1), emitErr s msg)
  | (.oserror, s) => (.error (.uncaught .osErr), s)

/-- The `git format-patch` command writing into the scratch directory. -/
def formatPatchCmd (temp_dir : String) : List String :=
  ["git", "format-patch", "-o", temp_dir, "-1"]

def checkPatchesCmd (temp_file : String) : List String :=
  ["devtools/checkpatches.sh", temp_file]

/-- The `try`-block body of `check_patch`: generate the patch, then run the
style checker on it.  (The child environment defaults
`DPDK_CHECKPATCH_PATH` when unset; the claims do not inspect it.) -/
def checkPatchBody (opts_exit_on_err : Bool) (temp_dir : String) (s : ExecState) : StepRes :=
  match call s (formatPatchCmd temp_dir) with
  | (.ok o, s) =>
    let temp_file := pyRstrip o
    let cmd := checkPatchesCmd temp_file
    let s := emitOut s ("Running: \"" ++ joinSpace cmd ++ "\"... ")
    match call s cmd with
    | (.ok _, s) => (.ok (), emitOut s "Passed.\n")
    | (.fail _ o2, s) =>
      let s := emitOut s "Failed.\n"
      let s := emitErr s ("Output:\n" ++ o2 ++ "\n")
      if opts_exit_on_err then (.error (.exited 1), s) else (.ok (), s)
    | (.oserror, s) => (.error (.uncaught .osErr), s)
  | (.fail _ o, s) =>
    let s := emitOut s "Failed.\n"
    let s := emitErr s ("Output:\n" ++ o ++ "\n")
    if opts_exit_on_err then (.error (.exited 1), s) else (.ok (), s)
  | (.oserror, s) => (.error (.uncaught .osErr), s)

/-- `check_patch()`: make a scratch directory, run the body, and in a
`finally` clause remove the scratch directory — an `OSError` with
`errno == ENOENT` is swallowed, any other `OSError` is re-raised and replaces
whatever was in flight (including a pending `SystemExit`). -/
def check_patch (opts_exit_on_err : Bool) (s : ExecState) : StepRes :=
  match mkdtemp s with
  | (temp_dir, s) =>
    match checkPatchBody opts_exit_on_err temp_dir s with
    | (res, s) =>
      match rmtreeCall s temp_dir with
      | (.ok, s) => (res, s)
      | (.err en, s) =>
        if en = ENOENT then (res, s) else (.error (.uncaught .osErr), s)

/-- CLI options (one field per `optparse` option used by the pipeline). -/
structure Opts where
  repo_dir : String
  num_jobs : PyVal
  exit_on_err : Bool
  build_type : String
  use_gcc : String
  use_clang : String
  run_checkgitlog : String
  run_checkpatch : String
deriving DecidableEq, Repr

/-- The `parser.set_defaults(...)` values (`num_jobs=1` is the Python `int`
one; `repo_dir` defaults to `os.getcwd()`). -/
def defaultOpts (cwd : String) : Opts :=
  { repo_dir := cwd
    num_jobs := .int 1
    exit_on_err := false
    build_type := "full"
    use_gcc := "yes"
    use_clang := "no"
    run_checkgitlog := "yes"
    run_checkpatch := "yes" }

/-- The compiler list main builds from `use_gcc`/`use_clang` (gcc appended
first). -/
def compilersOf (opts : Opts) : List String :=
  (if opts.use_gcc = "yes" then ["gcc"] else [])
    ++ (if opts.use_clang = "yes" then ["clang"] else [])

/-- Per-revision body and loop of `main` (the `for i, c in
enumerate(commit_tuples)` loop): print the separator and subject, check the
commit out, then run the enabled stages in fixed order. -/
def mainLoop (opts : Opts) (compilers : List String) :
    Nat → List (String × String) → ExecState → StepRes
  | _, [], s => (.ok (), s)
  | i, c :: rest, s =>
    let s := if i > 0 then emitOut s "\n==========================================\n\n" else s
    let s := emitOut s ("Commit: " ++ c.2 ++ "\n")
    bindStep (checkout_commit_with_hash c.1 s) fun _ s =>
    bindStep (if opts.run_checkgitlog = "yes" then check_git_log opts.exit_on_err s
              else (.ok (), s)) fun _ s =>
    bindStep (if opts.build_type ≠ "skip" then
                check_builds opts.exit_on_err compilers opts.build_type opts.num_jobs
                  opts.exit_on_err s
              else (.ok (), s)) fun _ s =>
    bindStep (if opts.run_checkpatch = "yes" then check_patch opts.exit_on_err s
              else (.ok (), s)) fun _ s =>
    mainLoop opts compilers (i + 1) rest s

def usageText : String :=
  "Usage: check_commits.py [options] <start_ref_not_inclusive> <end_ref_inclusive>\n"

/-- The body of `main()` after option parsing: positional-argument check (usage + exit 1
when fewer than two), `os.chdir(repo_dir)` when `repo_dir` is truthy (failure
is fatal), compiler-list construction, range resolution, then the loop. -/
def main' (opts : Opts) (args : List String) (s : ExecState) : StepRes :=
  match args with
  | start_ref :: end_ref :: _ =>
    bindStep
      (if opts.repo_dir ≠ "" then
        (if s.chdirFails then
          (.error (.exited 1),
            emitErr s ("Error: Could not change to repo directory: " ++ opts.repo_dir ++ "\n"))
        else (.ok (), s))
      else (.ok (), s)) fun _ s =>
    bindStep (get_commit_list start_ref end_ref s) fun commit_tuples s =>
    mainLoop opts (compilersOf opts) 0 commit_tuples s
  | _ => (.error (.exited 1), emitOut s usageText)

/-- Process exit status: 0 on normal completion, the `sys.exit` code, or 1
for an uncaught exception. -/
def exitCode {α : Type} : Except Term α → Nat
  | .ok _ => 0
  | .error (.exited c) => c
  | .error (.uncaught _) => 1

/-! ### Shared concrete worlds and initial states -/

/-- An initial execution state over the given oracle worlds. -/
def mkInit (w : Nat → List String → CmdResult) (rw : Nat → String → RmRes) : ExecState :=
  { world := w, rmWorld := rw, chdirFails := false,
    counter := 0, rmCounter := 0, tmpCounter := 0, trace := [] }

/-- A world in which every external command succeeds with output `o`. -/
def allOkWorld (o : String) : Nat → List String → CmdResult := fun _ _ => .ok o

/-- An rm world in which every `rmtree` succeeds. -/
def rmOkWorld : Nat → String → RmRes := fun _ _ => .ok

/-! ### C9: an empty range is a valid no-op -/

/-- C9: a range that resolves to zero revisions is a valid no-op outcome: the
run invokes nothing beyond the log query itself (no checkout, no check stage,
no output), and the process exits with code 0. -/
theorem empty_range_noop_exit_zero (opts : Opts) (a b : String) (rest : List String)
    (s : ExecState) (o : String)
    (hres : s.world s.counter (gitLogCmd a b) = .ok o)
    (hempty : findallLog o = [])
    (hch : s.chdirFails = false) :
    main' opts (a :: b :: rest) s =
      (.ok (), { s with counter := s.counter + 1,
                        trace := s.trace ++ [Event.invoke (gitLogCmd a b) (.ok o)] }) ∧
    exitCode (main' opts (a :: b :: rest) s).1 = 0 := by
  have h1 : main' opts (a :: b :: rest) s =
      (.ok (), { s with counter := s.counter + 1,
                        trace := s.trace ++ [Event.invoke (gitLogCmd a b) (.ok o)] }) := by
    simp [main', bindStep, get_commit_list, call, mainLoop, hch, hres, hempty]
  exact ⟨h1, by rw [h1]; rfl⟩

/-- Closed instance of the C9 theorem at a concrete empty range. -/
theorem empty_range_noop_exit_zero_witness :
    main' (defaultOpts "/repo") ["v1.0", "v1.1"] (mkInit (allOkWorld "") rmOkWorld) =
      (.ok (),
        { (mkInit (allOkWorld "") rmOkWorld) with
            counter := 1,
            trace := [Event.invoke (gitLogCmd "v1.0" "v1.1") (.ok "")] }) ∧
    exitCode (main' (defaultOpts "/repo") ["v1.0", "v1.1"] (mkInit (allOkWorld "") rmOkWorld)).1 = 0 :=
  empty_range_noop_exit_zero (defaultOpts "/repo") "v1.0" "v1.1" [] _ "" rfl rfl rfl

/-! ### C6 / C7 / C10: failure paths evaluated at concrete failing inputs -/

/-- A world in which every external command fails with status `rc` and
captured output `o`. -/
def failAllWorld (rc : Int) (o : String) : Nat → List String → CmdResult :=
  fun _ _ => .fail rc o

/-- C6: when the log query exits non-zero the run does abort at once with a
nonzero status and nothing is materialized or checked, but the `except`
handler crashes with `NameError` on the undefined names `start`/`end`
(the parameters are `start_ref`/`end_ref`), so the promised message naming
the refs is never written: the final trace contains the failing query
invocation and no stderr event at all, and the intended `sys.exit(1)` line
is never reached. -/
theorem range_resolution_failure_raises_nameerror :
    main' (defaultOpts "/repo") ["badref1", "badref2"]
        (mkInit (failAllWorld 128 "fatal: bad revision") rmOkWorld) =
      (.error (.uncaught (.nameErr "start")),
        { (mkInit (failAllWorld 128 "fatal: bad revision") rmOkWorld) with
            counter := 1,
            trace := [Event.invoke (gitLogCmd "badref1" "badref2")
              (.fail 128 "fatal: bad revision")] }) ∧
    exitCode (main' (defaultOpts "/repo") ["badref1", "badref2"]
        (mkInit (failAllWorld 128 "fatal: bad revision") rmOkWorld)).1 = 1 :=
  ⟨rfl, rfl⟩

/-- World for the checkout-failure scenario: the range resolves to the single
commit `h1`, whose checkout then fails. -/
def checkoutFailWorld : Nat → List String → CmdResult := fun _ cmd =>
  if cmd = checkoutCmd "h1" then .fail 1 "error: pathspec h1 did not match"
  else .ok "h1 fix things"

/-- C7: a failed checkout does terminate the whole run at once with a nonzero
status, regardless of policy, and no later stage runs — but the handler
evaluates `e.strerror`, an attribute `CalledProcessError` does not have, so
it crashes with `AttributeError` before writing anything: the reported error
carries neither the revision id nor the underlying error text (the trace has
no stderr event), and the intended `sys.exit(1)` is never reached. -/
theorem checkout_failure_raises_attributeerror :
    main' (defaultOpts "/repo") ["v1", "v2"] (mkInit checkoutFailWorld rmOkWorld) =
      (.error (.uncaught (.attrErr "CalledProcessError" "strerror")),
        { (mkInit checkoutFailWorld rmOkWorld) with
            counter := 2,
            trace := [Event.invoke (gitLogCmd "v1" "v2") (.ok "h1 fix things"),
              Event.out "Commit: fix things\n",
              Event.invoke (checkoutCmd "h1") (.fail 1 "error: pathspec h1 did not match")] }) ∧
    exitCode (main' (defaultOpts "/repo") ["v1", "v2"]
        (mkInit checkoutFailWorld rmOkWorld)).1 = 1 :=
  ⟨rfl, rfl⟩

/-- C10: under the parser defaults `num_jobs` is the Python integer `1`
(`set_defaults(num_jobs=1)`), and building the `-j` argument as
`'-j' + num_jobs` raises `TypeError`, so with default CLI options every
run reaching the build stage crashes: here a 1-commit range passes checkout
and the message check and then dies in `run_test_build` before any build
command is issued. -/
theorem default_num_jobs_build_raises_typeerror :
    (defaultOpts "/repo").num_jobs = PyVal.int 1 ∧
    pyConcat "-j" (PyVal.int 1) =
      .error (.typeErr "cannot concatenate str and int objects") ∧
    main' (defaultOpts "/repo") ["a", "b"] (mkInit (allOkWorld "h1 fix things") rmOkWorld) =
      (.error (.uncaught (.typeErr "cannot concatenate str and int objects")),
        { (mkInit (allOkWorld "h1 fix things") rmOkWorld) with
            counter := 3,
            trace := [Event.invoke (gitLogCmd "a" "b") (.ok "h1 fix things"),
              Event.out "Commit: fix things\n",
              Event.invoke (checkoutCmd "h1") (.ok "h1 fix things"),
              Event.out "Running: \"devtools/check-git-log.sh -1\"... ",
              Event.invoke checkGitLogCmd (.ok "h1 fix things"),
              Event.out "Passed.\n"] }) :=
  ⟨rfl, rfl, rfl⟩

/-! ### C5: patch-check scratch-directory cleanup -/

/-- The body of `check_patch` only appends to the trace and bumps the
invocation counter, and any failing invocation inside it is recorded and
reported (`Failed.` on stdout, the captured output on stderr). -/
lemma checkPatchBody_spec (b : Bool) (d : String) (s : ExecState) :
    ∃ Δ n, (checkPatchBody b d s).2 = { s with counter := n, trace := s.trace ++ Δ } ∧
      ∀ cmd rc o, Event.invoke cmd (.fail rc o) ∈ Δ →
        Event.out "Failed.\n" ∈ Δ ∧ Event.err ("Output:\n" ++ o ++ "\n") ∈ Δ := by
  rcases hfmt : s.world s.counter (formatPatchCmd d) with o | ⟨rc, o⟩ | _
  · rcases hcp : s.world (s.counter + 1) (checkPatchesCmd (pyRstrip o)) with o2 | ⟨rc2, o2⟩ | _
    · refine ⟨[Event.invoke (formatPatchCmd d) (.ok o),
        Event.out ("Running: \"" ++ joinSpace (checkPatchesCmd (pyRstrip o)) ++ "\"... "),
        Event.invoke (checkPatchesCmd (pyRstrip o)) (.ok o2),
        Event.out "Passed.\n"], s.counter + 2, ?_, ?_⟩
      · simp [checkPatchBody, call, emitOut, hfmt, hcp]
      · intro cmd rc o3 h
        simp at h
    · refine ⟨[Event.invoke (formatPatchCmd d) (.ok o),
        Event.out ("Running: \"" ++ joinSpace (checkPatchesCmd (pyRstrip o)) ++ "\"... "),
        Event.invoke (checkPatchesCmd (pyRstrip o)) (.fail rc2 o2),
        Event.out "Failed.\n",
        Event.err ("Output:\n" ++ o2 ++ "\n")], s.counter + 2, ?_, ?_⟩
      · simp [checkPatchBody, call, emitOut, emitErr, hfmt, hcp, apply_ite]
      · intro cmd rc o3 h
        simp at h
        simp [h.2.2]
    · refine ⟨[Event.invoke (formatPatchCmd d) (.ok o),
        Event.out ("Running: \"" ++ joinSpace (checkPatchesCmd (pyRstrip o)) ++ "\"... "),
        Event.invoke (checkPatchesCmd (pyRstrip o)) .oserror], s.counter + 2, ?_, ?_⟩
      · simp [checkPatchBody, call, emitOut, hfmt, hcp]
      · intro cmd rc o3 h
        simp at h
  · refine ⟨[Event.invoke (formatPatchCmd d) (.fail rc o),
      Event.out "Failed.\n",
      Event.err ("Output:\n" ++ o ++ "\n")], s.counter + 1, ?_, ?_⟩
    · simp [checkPatchBody, call, emitOut, emitErr, hfmt, apply_ite]
    · intro cmd rc2 o3 h
      simp at h
      simp [h.2.2]
  · refine ⟨[Event.invoke (formatPatchCmd d) .oserror], s.counter + 1, ?_, ?_⟩
    · simp [checkPatchBody, call, hfmt]
    · intro cmd rc o3 h
      simp at h

/-- C5: the scratch directory made for the generated patch is removed on
every exit path of `check_patch` — the cleanup event is the final event, even
when an invocation inside failed — a failing invocation is still recorded and
reported in the body events despite cleanup, a missing-directory (`ENOENT`)
condition during removal is not an error (the body's outcome passes through
unchanged, as with successful removal), and every other cleanup failure
propagates as an uncaught `OSError`. -/
theorem patch_check_cleanup_on_all_paths (b : Bool) (s : ExecState) :
    ∃ Δ,
      (check_patch b s).2.trace =
        s.trace ++ Event.mkdtempE (mkdtemp s).1 ::
          (Δ ++ [Event.rmtreeE (mkdtemp s).1 (s.rmWorld s.rmCounter (mkdtemp s).1)]) ∧
      (∀ cmd rc o, Event.invoke cmd (.fail rc o) ∈ Δ →
        Event.out "Failed.\n" ∈ Δ ∧ Event.err ("Output:\n" ++ o ++ "\n") ∈ Δ) ∧
      (∀ en, s.rmWorld s.rmCounter (mkdtemp s).1 = .err en → en ≠ ENOENT →
        (check_patch b s).1 = .error (.uncaught .osErr)) ∧
      ((s.rmWorld s.rmCounter (mkdtemp s).1 = .ok ∨
        s.rmWorld s.rmCounter (mkdtemp s).1 = .err ENOENT) →
        (check_patch b s).1 = (checkPatchBody b (mkdtemp s).1 (mkdtemp s).2).1) := by
  obtain ⟨Δ, n, h2, hrec⟩ := checkPatchBody_spec b (mkdtemp s).1 (mkdtemp s).2
  simp only [mkdtemp] at h2 ⊢
  refine ⟨Δ, ?_, hrec, ?_, ?_⟩
  · rcases hrm : s.rmWorld s.rmCounter ("/tmp/tmp" ++ toString s.tmpCounter) with _ | en
    · simp [check_patch, rmtreeCall, mkdtemp, h2, hrm]
    · by_cases hen : en = ENOENT <;>
        simp [check_patch, rmtreeCall, mkdtemp, h2, hrm, hen]
  · intro en hrm hen
    simp [check_patch, rmtreeCall, mkdtemp, h2, hrm, hen]
  · intro hrm
    rcases hrm with hrm | hrm <;> simp [check_patch, rmtreeCall, mkdtemp, h2, hrm, ENOENT]

/-! ### Trace predicates for the run-stopping claims -/

def isInvoke : Event → Bool
  | .invoke _ _ => true
  | _ => false

/-- Commands belonging to one of the three checks: the message-style check,
a build-matrix configuration, or the patch-style check (including its patch
generation step). -/
def isCheckCmd : List String → Bool
  | "devtools/check-git-log.sh" :: _ => true
  | "devtools/test-build.sh" :: _ => true
  | "devtools/checkpatches.sh" :: _ => true
  | "git" :: "format-patch" :: _ => true
  | _ => false

def isLaunchFail : Event → Bool
  | .invoke _ .oserror => true
  | _ => false

def isCheckFail : Event → Bool
  | .invoke cmd (.fail _ _) => isCheckCmd cmd
  | _ => false

/-- Stdout lines by which a completed check reports failure. -/
def isFailOut : Event → Bool
  | .out m => m = "Fail.\n" || m = "Failed.\n"
  | _ => false

/-- The build commands issued in a trace, in order. -/
def buildCmdsOf (tr : List Event) : List (List String) :=
  tr.filterMap fun e => match e with
    | .invoke ("devtools/test-build.sh" :: r) _ => some ("devtools/test-build.sh" :: r)
    | _ => none

/-- After any failing completed check in the trace the run result is a
termination with nonzero status, no further command is invoked after it, and
the check's captured output is reported on stderr after the failure. -/
def stopsAfterFail {α : Type} (res : Except Term α) (tr : List Event) : Prop :=
  ∀ (i : Nat) (cmd : List String) (rc : Int) (o : String),
    tr[i]? = some (Event.invoke cmd (CmdResult.fail rc o)) →
    isCheckCmd cmd = true →
    exitCode res ≠ 0
    ∧ (∀ (j : Nat) (e : Event), i < j → tr[j]? = some e → isInvoke e = false)
    ∧ (∃ (j : Nat) (pre : String), i < j ∧ tr[j]? = some (Event.err (pre ++ o ++ "\n")))

/-- After any launch failure (`OSError`) in the trace the run result is a
termination with nonzero status, and afterwards nothing further is invoked
and no check-failure report is printed (a launch failure is never confused
with the check failing). -/
def oserrSpec {α : Type} (res : Except Term α) (tr : List Event) : Prop :=
  ∀ (i : Nat) (cmd : List String), tr[i]? = some (Event.invoke cmd CmdResult.oserror) →
    exitCode res ≠ 0
    ∧ (∀ (j : Nat) (e : Event), i < j → tr[j]? = some e → isInvoke e = false ∧ isFailOut e = false)

/-- Combined per-stage safety: launch failures are always fatal, and under
`exit_on_err` any completed-check failure is fatal and final. -/
def stageOut {α : Type} (b : Bool) (res : Except Term α) (Δ : List Event) : Prop :=
  oserrSpec res Δ ∧ (b = true → stopsAfterFail res Δ)

/-- State evolution: the worlds and chdir flag are unchanged and the trace
grows by `Δ`. -/
def stepsTo (s s2 : ExecState) (Δ : List Event) : Prop :=
  s2.world = s.world ∧ s2.rmWorld = s.rmWorld ∧ s2.chdirFails = s.chdirFails ∧
  s2.trace = s.trace ++ Δ

lemma stepsTo_trans {s s2 s3 : ExecState} {Δ₁ Δ₂ : List Event}
    (h1 : stepsTo s s2 Δ₁) (h2 : stepsTo s2 s3 Δ₂) : stepsTo s s3 (Δ₁ ++ Δ₂) := by
  obtain ⟨a1, b1, c1, d1⟩ := h1
  obtain ⟨a2, b2, c2, d2⟩ := h2
  exact ⟨a2.trans a1, b2.trans b1, c2.trans c1, by rw [d2, d1, List.append_assoc]⟩

lemma stopsAfterFail_of_noFail {α : Type} {res : Except Term α} {tr : List Event}
    (h : ∀ e ∈ tr, isCheckFail e = false) : stopsAfterFail res tr := by
  intro i cmd rc o hi hc
  have h2 := h _ (List.getElem?_mem hi)
  simp [isCheckFail, hc] at h2

lemma oserrSpec_of_noLaunch {α : Type} {res : Except Term α} {tr : List Event}
    (h : ∀ e ∈ tr, isLaunchFail e = false) : oserrSpec res tr := by
  intro i cmd hi
  have h2 := h _ (List.getElem?_mem hi)
  simp [isLaunchFail] at h2

lemma stageOut_nil {α : Type} {b : Bool} {res : Except Term α} : stageOut b res [] :=
  ⟨oserrSpec_of_noLaunch (by simp), fun _ => stopsAfterFail_of_noFail (by simp)⟩

/-- Membership decomposition of an index into `Δ₁ ++ x :: Δ₂`. -/
lemma getElem?_mid {α : Type} (Δ₁ : List α) (x : α) (Δ₂ : List α) (i : Nat) (e : α)
    (h : (Δ₁ ++ x :: Δ₂)[i]? = some e) :
    (i < Δ₁.length ∧ e ∈ Δ₁) ∨ (i = Δ₁.length ∧ e = x) ∨ (Δ₁.length < i ∧ e ∈ Δ₂) := by
  rcases Nat.lt_trichotomy i Δ₁.length with hlt | hEq | hgt
  · rw [List.getElem?_append, if_pos hlt] at h
    exact .inl ⟨hlt, List.getElem?_mem h⟩
  · rw [List.getElem?_append_right (Nat.le_of_eq hEq.symm)] at h
    rw [hEq, Nat.sub_self] at h
    simp at h
    exact .inr (.inl ⟨hEq, h.symm⟩)
  · rw [List.getElem?_append_right (Nat.le_of_lt hgt)] at h
    have h3 : i - Δ₁.length = (i - Δ₁.length - 1) + 1 := by omega
    rw [h3] at h
    simp at h
    exact .inr (.inr ⟨hgt, List.getElem?_mem h⟩)

lemma stopsAfterFail_shape {α : Type} {res : Except Term α} (Δ₁ Δ₂ : List Event)
    (cmd : List String) (rc : Int) (o : String)
    (h1 : ∀ e ∈ Δ₁, isCheckFail e = false)
    (h2 : ∀ e ∈ Δ₂, isInvoke e = false)
    (h3 : ∃ pre, Event.err (pre ++ o ++ "\n") ∈ Δ₂)
    (h4 : exitCode res ≠ 0) :
    stopsAfterFail res (Δ₁ ++ Event.invoke cmd (CmdResult.fail rc o) :: Δ₂) := by
  intro i cmd2 rc2 o2 hi hc
  rcases getElem?_mid _ _ _ _ _ hi with ⟨hlt, hmem⟩ | ⟨hEq, hx⟩ | ⟨hgt, hmem⟩
  · have h5 := h1 _ hmem
    simp [isCheckFail, hc] at h5
  · injection hx with hA hB
    injection hB with hC hD
    subst hA hD
    refine ⟨h4, ?_, ?_⟩
    · intro j e hj hje
      rcases getElem?_mid _ _ _ _ _ hje with ⟨hlt2, _⟩ | ⟨hEq2, _⟩ | ⟨_, hmem2⟩
      · omega
      · omega
      · exact h2 _ hmem2
    · obtain ⟨pre, hmem2⟩ := h3
      obtain ⟨k, hk⟩ := List.mem_iff_getElem?.mp hmem2
      refine ⟨Δ₁.length + 1 + k, pre, by omega, ?_⟩
      rw [List.getElem?_append_right (by omega)]
      have h6 : Δ₁.length + 1 + k - Δ₁.length = k + 1 := by omega
      rw [h6]
      simpa using hk
  · have h5 := h2 _ hmem
    simp [isInvoke] at h5

lemma oserrSpec_shape {α : Type} {res : Except Term α} (Δ₁ Δ₂ : List Event) (cmd : List String)
    (h1 : ∀ e ∈ Δ₁, isLaunchFail e = false)
    (h2 : ∀ e ∈ Δ₂, isInvoke e = false ∧ isFailOut e = false)
    (h4 : exitCode res ≠ 0) :
    oserrSpec res (Δ₁ ++ Event.invoke cmd CmdResult.oserror :: Δ₂) := by
  intro i cmd2 hi
  rcases getElem?_mid _ _ _ _ _ hi with ⟨hlt, hmem⟩ | ⟨hEq, hx⟩ | ⟨hgt, hmem⟩
  · have h5 := h1 _ hmem
    simp [isLaunchFail] at h5
  · refine ⟨h4, ?_⟩
    intro j e hj hje
    rcases getElem?_mid _ _ _ _ _ hje with ⟨hlt2, _⟩ | ⟨hEq2, _⟩ | ⟨_, hmem2⟩
    · omega
    · omega
    · exact h2 _ hmem2
  · have h5 := (h2 _ hmem).1
    simp [isInvoke] at h5

lemma stopsAfterFail_append {α β : Type} {res : Except Term β} {a : α} {Δ₁ Δ₂ : List Event}
    (h1 : stopsAfterFail (.ok a) Δ₁) (h2 : stopsAfterFail res Δ₂) :
    stopsAfterFail res (Δ₁ ++ Δ₂) := by
  intro i cmd rc o hi hc
  by_cases hlt : i < Δ₁.length
  · rw [List.getElem?_append, if_pos hlt] at hi
    have h3 := (h1 i cmd rc o hi hc).1
    simp [exitCode] at h3
  · push_neg at hlt
    rw [List.getElem?_append_right hlt] at hi
    obtain ⟨hA, hB, hC⟩ := h2 _ cmd rc o hi hc
    refine ⟨hA, ?_, ?_⟩
    · intro j e hj hje
      have hj2 : Δ₁.length ≤ j := by omega
      rw [List.getElem?_append_right hj2] at hje
      exact hB _ e (by omega) hje
    · obtain ⟨j, pre, hij, hj⟩ := hC
      have hjlen : j < Δ₂.length := by
        by_contra hcon
        push_neg at hcon
        rw [List.getElem?_eq_none hcon] at hj
        exact Option.noConfusion hj
      refine ⟨j + Δ₁.length, pre, by omega, ?_⟩
      rw [List.getElem?_append_right (by omega)]
      simpa [Nat.add_sub_cancel] using hj
  
lemma oserrSpec_append {α β : Type} {res : Except Term β} {a : α} {Δ₁ Δ₂ : List Event}
    (h1 : oserrSpec (.ok a) Δ₁) (h2 : oserrSpec res Δ₂) :
    oserrSpec res (Δ₁ ++ Δ₂) := by
  intro i cmd hi
  by_cases hlt : i < Δ₁.length
  · rw [List.getElem?_append, if_pos hlt] at hi
    have h3 := (h1 i cmd hi).1
    simp [exitCode] at h3
  · push_neg at hlt
    rw [List.getElem?_append_right hlt] at hi
    obtain ⟨hA, hB⟩ := h2 _ cmd hi
    refine ⟨hA, ?_⟩
    intro j e hj hje
    have hj2 : Δ₁.length ≤ j := by omega
    rw [List.getElem?_append_right hj2] at hje
    exact hB _ e (by omega) hje

lemma stageOut_seq {α β : Type} {b : Bool} {res : Except Term β} {a : α} {Δ₁ Δ₂ : List Event}
    (h1 : stageOut b (.ok a) Δ₁) (h2 : stageOut b res Δ₂) :
    stageOut b res (Δ₁ ++ Δ₂) :=
  ⟨oserrSpec_append h1.1 h2.1, fun hb => stopsAfterFail_append (h1.2 hb) (h2.2 hb)⟩

lemma stopsAfterFail_cons {α : Type} {res : Except Term α} {Δ : List Event} (e₀ : Event)
    (he : isInvoke e₀ = false) (h : stopsAfterFail res Δ) :
    stopsAfterFail res (e₀ :: Δ) := by
  intro i cmd rc o hi hc
  match i with
  | 0 =>
    simp at hi
    rw [hi] at he
    simp [isInvoke] at he
  | i + 1 =>
    simp at hi
    obtain ⟨hA, hB, hC⟩ := h i cmd rc o hi hc
    refine ⟨hA, ?_, ?_⟩
    · intro j e hj hje
      match j, hj with
      | j + 1, hj =>
        simp at hje
        exact hB j e (by omega) hje
    · obtain ⟨j, pre, hij, hj⟩ := hC
      exact ⟨j + 1, pre, by omega, by simpa using hj⟩

lemma oserrSpec_cons {α : Type} {res : Except Term α} {Δ : List Event} (e₀ : Event)
    (he : isInvoke e₀ = false) (h : oserrSpec res Δ) :
    oserrSpec res (e₀ :: Δ) := by
  intro i cmd hi
  match i with
  | 0 =>
    simp at hi
    rw [hi] at he
    simp [isInvoke] at he
  | i + 1 =>
    simp at hi
    obtain ⟨hA, hB⟩ := h i cmd hi
    refine ⟨hA, ?_⟩
    intro j e hj hje
    match j, hj with
    | j + 1, hj =>
      simp at hje
      exact hB j e (by omega) hje

lemma stageOut_cons {α : Type} {b : Bool} {res : Except Term α} {Δ : List Event} (e₀ : Event)
    (he : isInvoke e₀ = false) (h : stageOut b res Δ) : stageOut b res (e₀ :: Δ) :=
  ⟨oserrSpec_cons e₀ he h.1, fun hb => stopsAfterFail_cons e₀ he (h.2 hb)⟩

/-! ### Per-stage safety lemmas (arbitrary worlds and options) -/

lemma stepsTo_rfl (s : ExecState) : stepsTo s s [] := ⟨rfl, rfl, rfl, by simp⟩

lemma buildCmdsOf_append (Δ₁ Δ₂ : List Event) :
    buildCmdsOf (Δ₁ ++ Δ₂) = buildCmdsOf Δ₁ ++ buildCmdsOf Δ₂ := by
  simp [buildCmdsOf, List.filterMap_append]

lemma exitCode_error_eq {α β : Type} (t : Term) :
    exitCode (Except.error t : Except Term α) = exitCode (Except.error t : Except Term β) := by
  cases t <;> rfl

lemma stopsAfterFail_congr {α β : Type} {res : Except Term α} {res2 : Except Term β}
    {Δ : List Event} (hEq : exitCode res2 = exitCode res) (h : stopsAfterFail res Δ) :
    stopsAfterFail res2 Δ := by
  intro i cmd rc o hi hc
  obtain ⟨hA, hB, hC⟩ := h i cmd rc o hi hc
  exact ⟨by rw [hEq]; exact hA, hB, hC⟩

lemma oserrSpec_congr {α β : Type} {res : Except Term α} {res2 : Except Term β}
    {Δ : List Event} (hEq : exitCode res2 = exitCode res) (h : oserrSpec res Δ) :
    oserrSpec res2 Δ := by
  intro i cmd hi
  obtain ⟨hA, hB⟩ := h i cmd hi
  exact ⟨by rw [hEq]; exact hA, hB⟩

lemma stageOut_congr {α β : Type} {b : Bool} {res : Except Term α} {res2 : Except Term β}
    {Δ : List Event} (hEq : exitCode res2 = exitCode res) (h : stageOut b res Δ) :
    stageOut b res2 Δ :=
  ⟨oserrSpec_congr hEq h.1, fun hb => stopsAfterFail_congr hEq (h.2 hb)⟩

lemma stopsAfterFail_retarget {α β : Type} {res : Except Term α} {res2 : Except Term β}
    {Δ : List Event} (h : stopsAfterFail res Δ) (h2 : exitCode res2 ≠ 0) :
    stopsAfterFail res2 Δ := by
  intro i cmd rc o hi hc
  obtain ⟨_, hB, hC⟩ := h i cmd rc o hi hc
  exact ⟨h2, hB, hC⟩

lemma oserrSpec_retarget {α β : Type} {res : Except Term α} {res2 : Except Term β}
    {Δ : List Event} (h : oserrSpec res Δ) (h2 : exitCode res2 ≠ 0) :
    oserrSpec res2 Δ := by
  intro i cmd hi
  obtain ⟨_, hB⟩ := h i cmd hi
  exact ⟨h2, hB⟩

lemma stageOut_retarget {α β : Type} {b : Bool} {res : Except Term α} {res2 : Except Term β}
    {Δ : List Event} (h : stageOut b res Δ) (h2 : exitCode res2 ≠ 0) :
    stageOut b res2 Δ :=
  ⟨oserrSpec_retarget h.1 h2, fun hb => stopsAfterFail_retarget (h.2 hb) h2⟩

lemma stopsAfterFail_concat {α : Type} {res : Except Term α} {Δ : List Event} (e₀ : Event)
    (he : isInvoke e₀ = false) (h : stopsAfterFail res Δ) :
    stopsAfterFail res (Δ ++ [e₀]) := by
  intro i cmd rc o hi hc
  rcases getElem?_mid Δ _ [] i _ hi with ⟨hlt, hmem⟩ | ⟨hEq, hx⟩ | ⟨hgt, hmem⟩
  · rw [List.getElem?_append, if_pos hlt] at hi
    obtain ⟨hA, hB, hC⟩ := h i cmd rc o hi hc
    refine ⟨hA, ?_, ?_⟩
    · intro j e hj hje
      rcases getElem?_mid Δ _ [] j _ hje with ⟨hlt2, _⟩ | ⟨hEq2, hx2⟩ | ⟨_, hmem2⟩
      · rw [List.getElem?_append, if_pos hlt2] at hje
        exact hB j e hj hje
      · rw [hx2]
        exact he
      · simp at hmem2
    · obtain ⟨j, pre, hij, hj⟩ := hC
      have hjlen : j < Δ.length := by
        by_contra hcon
        push_neg at hcon
        rw [List.getElem?_eq_none hcon] at hj
        exact Option.noConfusion hj
      exact ⟨j, pre, hij, by rw [List.getElem?_append, if_pos hjlen]; exact hj⟩
  · rw [← hx] at he
    simp [isInvoke] at he
  · simp at hmem

lemma oserrSpec_concat {α : Type} {res : Except Term α} {Δ : List Event} (e₀ : Event)
    (he : isInvoke e₀ = false) (he2 : isFailOut e₀ = false) (h : oserrSpec res Δ) :
    oserrSpec res (Δ ++ [e₀]) := by
  intro i cmd hi
  rcases getElem?_mid Δ _ [] i _ hi with ⟨hlt, hmem⟩ | ⟨hEq, hx⟩ | ⟨hgt, hmem⟩
  · rw [List.getElem?_append, if_pos hlt] at hi
    obtain ⟨hA, hB⟩ := h i cmd hi
    refine ⟨hA, ?_⟩
    intro j e hj hje
    rcases getElem?_mid Δ _ [] j _ hje with ⟨hlt2, _⟩ | ⟨hEq2, hx2⟩ | ⟨_, hmem2⟩
    · rw [List.getElem?_append, if_pos hlt2] at hje
      exact hB j e hj hje
    · rw [hx2]
      exact ⟨he, he2⟩
    · simp at hmem2
  · rw [← hx] at he
    simp [isInvoke] at he
  · simp at hmem

lemma stageOut_concat {α : Type} {b : Bool} {res : Except Term α} {Δ : List Event} (e₀ : Event)
    (he : isInvoke e₀ = false) (he2 : isFailOut e₀ = false) (h : stageOut b res Δ) :
    stageOut b res (Δ ++ [e₀]) :=
  ⟨oserrSpec_concat e₀ he he2 h.1, fun hb => stopsAfterFail_concat e₀ he (h.2 hb)⟩

/-- Generic composition over `bindStep`: the combined step inherits the
per-stage safety of its parts, together with an arbitrary hereditary
build-freeness side condition. -/
lemma stageOut_bindStep {α : Type} {b : Bool} {s : ExecState} (bs : Prop)
    (f : Except Term α × ExecState) (g : α → ExecState → StepRes) (Δ₁ : List Event)
    (h1 : stepsTo s f.2 Δ₁) (h2 : stageOut b f.1 Δ₁)
    (hb1 : bs → buildCmdsOf Δ₁ = [])
    (hg : ∀ a, f.1 = .ok a →
      ∃ Δ₂, stepsTo f.2 (g a f.2).2 Δ₂ ∧ stageOut b (g a f.2).1 Δ₂ ∧
        (bs → buildCmdsOf Δ₂ = [])) :
    ∃ Δ, stepsTo s (bindStep f g).2 Δ ∧ stageOut b (bindStep f g).1 Δ ∧
      (bs → buildCmdsOf Δ = []) := by
  rcases f with ⟨res, s1⟩
  cases res with
  | error t =>
    simp only [bindStep]
    have h2a : stageOut b (Except.error t : Except Term α) Δ₁ := by simpa using h2
    exact ⟨Δ₁, h1, stageOut_congr (exitCode_error_eq t) h2a, hb1⟩
  | ok a =>
    obtain ⟨Δ₂, h3, h4, h5⟩ := hg a rfl
    simp only [bindStep]
    refine ⟨Δ₁ ++ Δ₂, stepsTo_trans h1 h3, stageOut_seq h2 h4, ?_⟩
    intro hbs
    rw [buildCmdsOf_append, hb1 hbs, h5 hbs]
    rfl

lemma resolveName_start (a1 a2 : String) :
    resolveName (getCommitListScope a1 a2) "start" = .error (.nameErr "start") := rfl

lemma cpeGetattr_strerror (rc : Int) (cmd : List String) (o : String) :
    cpeGetattr rc cmd o "strerror" = .error (.attrErr "CalledProcessError" "strerror") := rfl

lemma get_commit_list_stageOut (b : Bool) (a1 a2 : String) (s : ExecState) :
    ∃ Δ, stepsTo s (get_commit_list a1 a2 s).2 Δ ∧
      stageOut b (get_commit_list a1 a2 s).1 Δ ∧ buildCmdsOf Δ = [] := by
  rcases hq : s.world s.counter (gitLogCmd a1 a2) with o | ⟨rc, o⟩ | _
  · have hc : get_commit_list a1 a2 s = (.ok ((findallLog o).reverse),
        { s with counter := s.counter + 1,
                 trace := s.trace ++ [Event.invoke (gitLogCmd a1 a2) (.ok o)] }) := by
      simp [get_commit_list, call, hq]
    rw [hc]
    refine ⟨[Event.invoke (gitLogCmd a1 a2) (.ok o)], ⟨rfl, rfl, rfl, rfl⟩, ?_, rfl⟩
    exact ⟨oserrSpec_of_noLaunch (by simp [isLaunchFail]),
      fun _ => stopsAfterFail_of_noFail (by simp [isCheckFail])⟩
  · have hc : get_commit_list a1 a2 s = (.error (.uncaught (.nameErr "start")),
        { s with counter := s.counter + 1,
                 trace := s.trace ++ [Event.invoke (gitLogCmd a1 a2) (.fail rc o)] }) := by
      simp [get_commit_list, call, hq, resolveName_start]
    rw [hc]
    refine ⟨[Event.invoke (gitLogCmd a1 a2) (.fail rc o)], ⟨rfl, rfl, rfl, rfl⟩, ?_, rfl⟩
    refine ⟨oserrSpec_of_noLaunch (by simp [isLaunchFail]),
      fun _ => stopsAfterFail_of_noFail ?_⟩
    intro e he
    simp at he
    rw [he]
    rfl
  · have hc : get_commit_list a1 a2 s = (.error (.uncaught .osErr),
        { s with counter := s.counter + 1,
                 trace := s.trace ++ [Event.invoke (gitLogCmd a1 a2) .oserror] }) := by
      simp [get_commit_list, call, hq]
    rw [hc]
    refine ⟨[Event.invoke (gitLogCmd a1 a2) .oserror], ⟨rfl, rfl, rfl, rfl⟩, ?_, rfl⟩
    refine ⟨?_, fun _ => stopsAfterFail_of_noFail (by simp [isCheckFail])⟩
    have h5 := @oserrSpec_shape (List (String × String))
      (Except.error (Term.uncaught PyErr.osErr)) [] [] (gitLogCmd a1 a2)
      (by simp) (by simp) (by simp [exitCode])
    simpa using h5

lemma checkout_stageOut (b : Bool) (h : String) (s : ExecState) :
    ∃ Δ, stepsTo s (checkout_commit_with_hash h s).2 Δ ∧
      stageOut b (checkout_commit_with_hash h s).1 Δ ∧ buildCmdsOf Δ = [] := by
  rcases hq : s.world s.counter (checkoutCmd h) with o | ⟨rc, o⟩ | _
  · have hc : checkout_commit_with_hash h s = (.ok (),
        { s with counter := s.counter + 1,
                 trace := s.trace ++ [Event.invoke (checkoutCmd h) (.ok o)] }) := by
      simp [checkout_commit_with_hash, call, hq]
    rw [hc]
    refine ⟨[Event.invoke (checkoutCmd h) (.ok o)], ⟨rfl, rfl, rfl, rfl⟩, ?_, rfl⟩
    exact ⟨oserrSpec_of_noLaunch (by simp [isLaunchFail]),
      fun _ => stopsAfterFail_of_noFail (by simp [isCheckFail])⟩
  · have hc : checkout_commit_with_hash h s =
        (.error (.uncaught (.attrErr "CalledProcessError" "strerror")),
        { s with counter := s.counter + 1,
                 trace := s.trace ++ [Event.invoke (checkoutCmd h) (.fail rc o)] }) := by
      simp [checkout_commit_with_hash, call, hq, cpeGetattr_strerror]
    rw [hc]
    refine ⟨[Event.invoke (checkoutCmd h) (.fail rc o)], ⟨rfl, rfl, rfl, rfl⟩, ?_, rfl⟩
    refine ⟨oserrSpec_of_noLaunch (by simp [isLaunchFail]),
      fun _ => stopsAfterFail_of_noFail ?_⟩
    intro e he
    simp at he
    rw [he]
    rfl
  · have hc : checkout_commit_with_hash h s = (.error (.uncaught .osErr),
        { s with counter := s.counter + 1,
                 trace := s.trace ++ [Event.invoke (checkoutCmd h) .oserror] }) := by
      simp [checkout_commit_with_hash, call, hq]
    rw [hc]
    refine ⟨[Event.invoke (checkoutCmd h) .oserror], ⟨rfl, rfl, rfl, rfl⟩, ?_, rfl⟩
    refine ⟨?_, fun _ => stopsAfterFail_of_noFail (by simp [isCheckFail])⟩
    have h5 := @oserrSpec_shape Unit (Except.error (Term.uncaught PyErr.osErr)) [] [] (checkoutCmd h) (by simp) (by simp) (by simp [exitCode])
    simpa using h5

lemma check_git_log_stageOut (b : Bool) (s : ExecState) :
    ∃ Δ, stepsTo s (check_git_log b s).2 Δ ∧ stageOut b (check_git_log b s).1 Δ ∧
      buildCmdsOf Δ = [] := by
  rcases hq : s.world s.counter checkGitLogCmd with o | ⟨rc, o⟩ | _
  · have hc : check_git_log b s = (.ok (),
        { s with counter := s.counter + 1,
                 trace := s.trace ++
                   [Event.out ("Running: \"" ++ joinSpace checkGitLogCmd ++ "\"... "),
                    Event.invoke checkGitLogCmd (.ok o), Event.out "Passed.\n"] }) := by
      simp [check_git_log, call, emitOut, hq]
    rw [hc]
    refine ⟨_, ⟨rfl, rfl, rfl, rfl⟩, ?_, rfl⟩
    refine ⟨oserrSpec_of_noLaunch ?_, fun _ => stopsAfterFail_of_noFail ?_⟩ <;>
      · intro e he
        simp at he
        rcases he with h | h | h <;> rw [h] <;> rfl
  · by_cases hb : b = true
    · have hc : check_git_log b s = (.error (.exited 1),
          { s with counter := s.counter + 1,
                   trace := s.trace ++
                     [Event.out ("Running: \"" ++ joinSpace checkGitLogCmd ++ "\"... "),
                      Event.invoke checkGitLogCmd (.fail rc o), Event.out "Fail.\n",
                      Event.err ("Output:" ++ o ++ "\n")] }) := by
        simp [check_git_log, call, emitOut, emitErr, hq, hb]
      rw [hc]
      refine ⟨_, ⟨rfl, rfl, rfl, rfl⟩, ?_, rfl⟩
      constructor
      · refine oserrSpec_of_noLaunch ?_
        intro e he
        simp at he
        rcases he with h | h | h | h <;> rw [h] <;> rfl
      · intro _
        have h5 := @stopsAfterFail_shape Unit (Except.error (Term.exited 1))
          [Event.out ("Running: \"" ++ joinSpace checkGitLogCmd ++ "\"... ")]
          [Event.out "Fail.\n", Event.err ("Output:" ++ o ++ "\n")]
          checkGitLogCmd rc o ?_ ?_ ⟨"Output:", by simp⟩ (by simp [exitCode])
        · simpa using h5
        · intro e he
          simp at he
          rw [he]
          rfl
        · intro e he
          simp at he
          rcases he with h | h <;> rw [h] <;> rfl
    · have hc : check_git_log b s = (.ok (),
          { s with counter := s.counter + 1,
                   trace := s.trace ++
                     [Event.out ("Running: \"" ++ joinSpace checkGitLogCmd ++ "\"... "),
                      Event.invoke checkGitLogCmd (.fail rc o), Event.out "Fail.\n",
                      Event.err ("Output:" ++ o ++ "\n")] }) := by
        simp [check_git_log, call, emitOut, emitErr, hq, hb]
      rw [hc]
      refine ⟨_, ⟨rfl, rfl, rfl, rfl⟩, ?_, rfl⟩
      constructor
      · refine oserrSpec_of_noLaunch ?_
        intro e he
        simp at he
        rcases he with h | h | h | h <;> rw [h] <;> rfl
      · intro hb2
        exact absurd hb2 hb
  · have hc : check_git_log b s = (.error (.exited 1),
        { s with counter := s.counter + 1,
                 trace := s.trace ++
                   [Event.out ("Running: \"" ++ joinSpace checkGitLogCmd ++ "\"... "),
                    Event.invoke checkGitLogCmd .oserror, Event.out "\n",
                    Event.err "Error: Couldn't run check-git-log.sh. Are you in the root dir of the repo?\n"] }) := by
      simp [check_git_log, call, emitOut, emitErr, hq]
    rw [hc]
    refine ⟨_, ⟨rfl, rfl, rfl, rfl⟩, ?_, rfl⟩
    constructor
    · have h5 := @oserrSpec_shape Unit (Except.error (Term.exited 1))
        [Event.out ("Running: \"" ++ joinSpace checkGitLogCmd ++ "\"... ")]
        [Event.out "\n",
         Event.err "Error: Couldn't run check-git-log.sh. Are you in the root dir of the repo?\n"]
        checkGitLogCmd ?_ ?_ (by simp [exitCode])
      · simpa using h5
      · intro e he
        simp at he
        rw [he]
        rfl
      · intro e he
        simp at he
        rcases he with h | h <;> rw [h] <;> exact ⟨rfl, by rfl⟩
    · intro _
      refine stopsAfterFail_of_noFail ?_
      intro e he
      simp at he
      rcases he with h | h | h | h <;> rw [h] <;> rfl

lemma run_test_build_stageOut (b : Bool) (bt ar : String) (nj : PyVal) (s : ExecState) :
    ∃ Δ, stepsTo s (run_test_build b bt ar nj s).2 Δ ∧
      stageOut b (run_test_build b bt ar nj s).1 Δ := by
  rcases nj with j | n | xs
  · rcases hq : s.world s.counter (testBuildCmd ("-j" ++ j) bt ar) with o | ⟨rc, o⟩ | _
    · have hc : run_test_build b bt ar (.str j) s = (.ok (),
          { s with counter := s.counter + 1,
                   trace := s.trace ++
                     [Event.out ("Running: \"" ++ joinSpace (testBuildCmd ("-j" ++ j) bt ar) ++ "\"... "),
                      Event.invoke (testBuildCmd ("-j" ++ j) bt ar) (.ok o),
                      Event.out "Passed.\n"] }) := by
        simp [run_test_build, pyConcat, call, emitOut, hq]
      rw [hc]
      refine ⟨_, ⟨rfl, rfl, rfl, rfl⟩, ?_⟩
      refine ⟨oserrSpec_of_noLaunch ?_, fun _ => stopsAfterFail_of_noFail ?_⟩ <;>
        · intro e he
          simp at he
          rcases he with h | h | h <;> rw [h] <;> rfl
    · by_cases hb : b = true
      · have hc : run_test_build b bt ar (.str j) s = (.error (.exited 1),
            { s with counter := s.counter + 1,
                     trace := s.trace ++
                       [Event.out ("Running: \"" ++ joinSpace (testBuildCmd ("-j" ++ j) bt ar) ++ "\"... "),
                        Event.invoke (testBuildCmd ("-j" ++ j) bt ar) (.fail rc o),
                        Event.out "Failed.\n",
                        Event.err ("Output:\n" ++ o ++ "\n")] }) := by
          simp [run_test_build, pyConcat, call, emitOut, emitErr, hq, hb]
        rw [hc]
        refine ⟨_, ⟨rfl, rfl, rfl, rfl⟩, ?_⟩
        constructor
        · refine oserrSpec_of_noLaunch ?_
          intro e he
          simp at he
          rcases he with h | h | h | h <;> rw [h] <;> rfl
        · intro _
          have h5 := @stopsAfterFail_shape Unit (Except.error (Term.exited 1))
            [Event.out ("Running: \"" ++ joinSpace (testBuildCmd ("-j" ++ j) bt ar) ++ "\"... ")]
            [Event.out "Failed.\n", Event.err ("Output:\n" ++ o ++ "\n")]
            (testBuildCmd ("-j" ++ j) bt ar) rc o ?_ ?_ ⟨"Output:\n", by simp⟩ (by simp [exitCode])
          · simpa using h5
          · intro e he
            simp at he
            rw [he]
            rfl
          · intro e he
            simp at he
            rcases he with h | h <;> rw [h] <;> rfl
      · have hc : run_test_build b bt ar (.str j) s = (.ok (),
            { s with counter := s.counter + 1,
                     trace := s.trace ++
                       [Event.out ("Running: \"" ++ joinSpace (testBuildCmd ("-j" ++ j) bt ar) ++ "\"... "),
                        Event.invoke (testBuildCmd ("-j" ++ j) bt ar) (.fail rc o),
                        Event.out "Failed.\n",
                        Event.err ("Output:\n" ++ o ++ "\n")] }) := by
          simp [run_test_build, pyConcat, call, emitOut, emitErr, hq, hb]
        rw [hc]
        refine ⟨_, ⟨rfl, rfl, rfl, rfl⟩, ?_⟩
        constructor
        · refine oserrSpec_of_noLaunch ?_
          intro e he
          simp at he
          rcases he with h | h | h | h <;> rw [h] <;> rfl
        · intro hb2
          exact absurd hb2 hb
    · have hc : run_test_build b bt ar (.str j) s = (.error (.uncaught .osErr),
          { s with counter := s.counter + 1,
                   trace := s.trace ++
                     [Event.out ("Running: \"" ++ joinSpace (testBuildCmd ("-j" ++ j) bt ar) ++ "\"... "),
                      Event.invoke (testBuildCmd ("-j" ++ j) bt ar) .oserror] }) := by
        simp [run_test_build, pyConcat, call, emitOut, hq]
      rw [hc]
      refine ⟨_, ⟨rfl, rfl, rfl, rfl⟩, ?_⟩
      constructor
      · have h5 := @oserrSpec_shape Unit (Except.error (Term.uncaught PyErr.osErr))
          [Event.out ("Running: \"" ++ joinSpace (testBuildCmd ("-j" ++ j) bt ar) ++ "\"... ")]
          [] (testBuildCmd ("-j" ++ j) bt ar) ?_ (by simp) (by simp [exitCode])
        · simpa using h5
        · intro e he
          simp at he
          rw [he]
          rfl
      · intro _
        refine stopsAfterFail_of_noFail ?_
        intro e he
        simp at he
        rcases he with h | h <;> rw [h] <;> rfl
  · exact ⟨[], stepsTo_rfl s, stageOut_nil⟩
  · exact ⟨[], stepsTo_rfl s, stageOut_nil⟩

lemma check_builds_stageOut (b : Bool) (compilers : List String) (bt : String) (nj : PyVal)
    (b2 : Bool) : ∀ s : ExecState,
    ∃ Δ, stepsTo s (check_builds b compilers bt nj b2 s).2 Δ ∧
      stageOut b (check_builds b compilers bt nj b2 s).1 Δ := by
  induction compilers with
  | nil =>
    intro s
    exact ⟨[], stepsTo_rfl s, stageOut_nil⟩
  | cons c rest ih =>
    intro s
    have hmain : check_builds b (c :: rest) bt nj b2 s =
        bindStep (run_test_build b bt ("x86_64-native-linuxapp-" ++ c) nj s) (fun _ s =>
          bindStep (run_test_build b bt ("x86_64-native-linuxapp-" ++ c ++ "+shared") nj s)
            (fun _ s => check_builds b rest bt nj b2 s)) := by
      simp [check_builds]
    rw [hmain]
    obtain ⟨Δ₁, h1, h2⟩ := run_test_build_stageOut b bt ("x86_64-native-linuxapp-" ++ c) nj s
    refine Exists.imp (fun Δ hh => ⟨hh.1, hh.2.1⟩)
      (stageOut_bindStep False _ _ Δ₁ h1 h2 (fun hf => hf.elim) ?_)
    intro a ha
    obtain ⟨Δ₂, h3, h4⟩ := run_test_build_stageOut b bt ("x86_64-native-linuxapp-" ++ c ++ "+shared")
      nj (run_test_build b bt ("x86_64-native-linuxapp-" ++ c) nj s).2
    refine stageOut_bindStep False _ _ Δ₂ h3 h4 (fun hf => hf.elim) ?_
    intro a2 ha2
    obtain ⟨Δ₃, h5, h6⟩ := ih _
    exact ⟨Δ₃, h5, h6, fun hf => hf.elim⟩

lemma checkPatchBody_stageOut (b : Bool) (d : String) (s : ExecState) :
    ∃ Δ, stepsTo s (checkPatchBody b d s).2 Δ ∧ stageOut b (checkPatchBody b d s).1 Δ ∧
      buildCmdsOf Δ = [] := by
  rcases hfmt : s.world s.counter (formatPatchCmd d) with o | ⟨rc, o⟩ | _
  · rcases hcp : s.world (s.counter + 1) (checkPatchesCmd (pyRstrip o)) with o2 | ⟨rc2, o2⟩ | _
    · have hc : checkPatchBody b d s = (.ok (),
          { s with counter := s.counter + 2,
                   trace := s.trace ++
                     [Event.invoke (formatPatchCmd d) (.ok o),
                      Event.out ("Running: \"" ++ joinSpace (checkPatchesCmd (pyRstrip o)) ++ "\"... "),
                      Event.invoke (checkPatchesCmd (pyRstrip o)) (.ok o2),
                      Event.out "Passed.\n"] }) := by
        simp [checkPatchBody, call, emitOut, hfmt, hcp]
      rw [hc]
      refine ⟨_, ⟨rfl, rfl, rfl, rfl⟩, ?_, rfl⟩
      refine ⟨oserrSpec_of_noLaunch ?_, fun _ => stopsAfterFail_of_noFail ?_⟩ <;>
        · intro e he
          simp at he
          rcases he with h | h | h | h <;> rw [h] <;> rfl
    · by_cases hb : b = true
      · have hc : checkPatchBody b d s = (.error (.exited 1),
            { s with counter := s.counter + 2,
                     trace := s.trace ++
                       [Event.invoke (formatPatchCmd d) (.ok o),
                        Event.out ("Running: \"" ++ joinSpace (checkPatchesCmd (pyRstrip o)) ++ "\"... "),
                        Event.invoke (checkPatchesCmd (pyRstrip o)) (.fail rc2 o2),
                        Event.out "Failed.\n",
                        Event.err ("Output:\n" ++ o2 ++ "\n")] }) := by
          simp [checkPatchBody, call, emitOut, emitErr, hfmt, hcp, hb]
        rw [hc]
        refine ⟨_, ⟨rfl, rfl, rfl, rfl⟩, ?_, rfl⟩
        constructor
        · refine oserrSpec_of_noLaunch ?_
          intro e he
          simp at he
          rcases he with h | h | h | h | h <;> rw [h] <;> rfl
        · intro _
          have h5 := @stopsAfterFail_shape Unit (Except.error (Term.exited 1))
            [Event.invoke (formatPatchCmd d) (.ok o),
             Event.out ("Running: \"" ++ joinSpace (checkPatchesCmd (pyRstrip o)) ++ "\"... ")]
            [Event.out "Failed.\n", Event.err ("Output:\n" ++ o2 ++ "\n")]
            (checkPatchesCmd (pyRstrip o)) rc2 o2 ?_ ?_ ⟨"Output:\n", by simp⟩ (by simp [exitCode])
          · simpa using h5
          · intro e he
            simp at he
            rcases he with h | h <;> rw [h] <;> rfl
          · intro e he
            simp at he
            rcases he with h | h <;> rw [h] <;> rfl
      · have hc : checkPatchBody b d s = (.ok (),
            { s with counter := s.counter + 2,
                     trace := s.trace ++
                       [Event.invoke (formatPatchCmd d) (.ok o),
                        Event.out ("Running: \"" ++ joinSpace (checkPatchesCmd (pyRstrip o)) ++ "\"... "),
                        Event.invoke (checkPatchesCmd (pyRstrip o)) (.fail rc2 o2),
                        Event.out "Failed.\n",
                        Event.err ("Output:\n" ++ o2 ++ "\n")] }) := by
          simp [checkPatchBody, call, emitOut, emitErr, hfmt, hcp, hb]
        rw [hc]
        refine ⟨_, ⟨rfl, rfl, rfl, rfl⟩, ?_, rfl⟩
        constructor
        · refine oserrSpec_of_noLaunch ?_
          intro e he
          simp at he
          rcases he with h | h | h | h | h <;> rw [h] <;> rfl
        · intro hb2
          exact absurd hb2 hb
    · have hc : checkPatchBody b d s = (.error (.uncaught .osErr),
          { s with counter := s.counter + 2,
                   trace := s.trace ++
                     [Event.invoke (formatPatchCmd d) (.ok o),
                      Event.out ("Running: \"" ++ joinSpace (checkPatchesCmd (pyRstrip o)) ++ "\"... "),
                      Event.invoke (checkPatchesCmd (pyRstrip o)) .oserror] }) := by
        simp [checkPatchBody, call, emitOut, hfmt, hcp]
      rw [hc]
      refine ⟨_, ⟨rfl, rfl, rfl, rfl⟩, ?_, rfl⟩
      constructor
      · have h5 := @oserrSpec_shape Unit (Except.error (Term.uncaught PyErr.osErr))
          [Event.invoke (formatPatchCmd d) (.ok o),
           Event.out ("Running: \"" ++ joinSpace (checkPatchesCmd (pyRstrip o)) ++ "\"... ")]
          [] (checkPatchesCmd (pyRstrip o)) ?_ (by simp) (by simp [exitCode])
        · simpa using h5
        · intro e he
          simp at he
          rcases he with h | h <;> rw [h] <;> rfl
      · intro _
        refine stopsAfterFail_of_noFail ?_
        intro e he
        simp at he
        rcases he with h | h | h <;> rw [h] <;> rfl
  · by_cases hb : b = true
    · have hc : checkPatchBody b d s = (.error (.exited 1),
          { s with counter := s.counter + 1,
                   trace := s.trace ++
                     [Event.invoke (formatPatchCmd d) (.fail rc o),
                      Event.out "Failed.\n",
                      Event.err ("Output:\n" ++ o ++ "\n")] }) := by
        simp [checkPatchBody, call, emitOut, emitErr, hfmt, hb]
      rw [hc]
      refine ⟨_, ⟨rfl, rfl, rfl, rfl⟩, ?_, rfl⟩
      constructor
      · refine oserrSpec_of_noLaunch ?_
        intro e he
        simp at he
        rcases he with h | h | h <;> rw [h] <;> rfl
      · intro _
        have h5 := @stopsAfterFail_shape Unit (Except.error (Term.exited 1))
          [] [Event.out "Failed.\n", Event.err ("Output:\n" ++ o ++ "\n")]
          (formatPatchCmd d) rc o (by simp) ?_ ⟨"Output:\n", by simp⟩ (by simp [exitCode])
        · simpa using h5
        · intro e he
          simp at he
          rcases he with h | h <;> rw [h] <;> rfl
    · have hc : checkPatchBody b d s = (.ok (),
          { s with counter := s.counter + 1,
                   trace := s.trace ++
                     [Event.invoke (formatPatchCmd d) (.fail rc o),
                      Event.out "Failed.\n",
                      Event.err ("Output:\n" ++ o ++ "\n")] }) := by
        simp [checkPatchBody, call, emitOut, emitErr, hfmt, hb]
      rw [hc]
      refine ⟨_, ⟨rfl, rfl, rfl, rfl⟩, ?_, rfl⟩
      constructor
      · refine oserrSpec_of_noLaunch ?_
        intro e he
        simp at he
        rcases he with h | h | h <;> rw [h] <;> rfl
      · intro hb2
        exact absurd hb2 hb
  · have hc : checkPatchBody b d s = (.error (.uncaught .osErr),
        { s with counter := s.counter + 1,
                 trace := s.trace ++ [Event.invoke (formatPatchCmd d) .oserror] }) := by
      simp [checkPatchBody, call, hfmt]
    rw [hc]
    refine ⟨_, ⟨rfl, rfl, rfl, rfl⟩, ?_, rfl⟩
    constructor
    · have h5 := @oserrSpec_shape Unit (Except.error (Term.uncaught PyErr.osErr))
        [] [] (formatPatchCmd d) (by simp) (by simp) (by simp [exitCode])
      simpa using h5
    · intro _
      refine stopsAfterFail_of_noFail ?_
      intro e he
      simp at he
      rw [he]
      rfl

lemma check_patch_stageOut (b : Bool) (s : ExecState) :
    ∃ Δ, stepsTo s (check_patch b s).2 Δ ∧ stageOut b (check_patch b s).1 Δ ∧
      buildCmdsOf Δ = [] := by
  obtain ⟨Δb, h1, h2, h3⟩ :=
    checkPatchBody_stageOut b ("/tmp/tmp" ++ toString s.tmpCounter) (mkdtemp s).2
  rcases hbody : checkPatchBody b ("/tmp/tmp" ++ toString s.tmpCounter) (mkdtemp s).2
    with ⟨resb, s2⟩
  rw [hbody] at h1 h2
  simp only [mkdtemp] at hbody
  obtain ⟨ha, hb2, hc2, hd⟩ := h1
  simp only [mkdtemp] at ha hb2 hc2 hd
  have hbuild : buildCmdsOf (Event.mkdtempE ("/tmp/tmp" ++ toString s.tmpCounter) :: (Δb ++
      [Event.rmtreeE ("/tmp/tmp" ++ toString s.tmpCounter)
        (s2.rmWorld s2.rmCounter ("/tmp/tmp" ++ toString s.tmpCounter))])) = [] := by
    simp [buildCmdsOf, List.filterMap_append] at h3 ⊢
    exact h3
  rcases hrm : s2.rmWorld s2.rmCounter ("/tmp/tmp" ++ toString s.tmpCounter) with _ | en
  · have hc : check_patch b s = (resb,
        { s2 with
            rmCounter := s2.rmCounter + 1,
            trace := s2.trace ++ [Event.rmtreeE ("/tmp/tmp" ++ toString s.tmpCounter) .ok] }) := by
      simp [check_patch, mkdtemp, hbody, rmtreeCall, hrm]
    rw [hc]
    refine ⟨Event.mkdtempE ("/tmp/tmp" ++ toString s.tmpCounter) :: (Δb ++
      [Event.rmtreeE ("/tmp/tmp" ++ toString s.tmpCounter) .ok]), ⟨ha, hb2, hc2, ?_⟩, ?_, ?_⟩
    · rw [hd]
      simp
    · exact stageOut_cons _ rfl (stageOut_concat _ rfl rfl (by simpa using h2))
    · rw [← hrm]
      exact hbuild
  · by_cases hen : en = 2
    · have hc : check_patch b s = (resb,
          { s2 with
              rmCounter := s2.rmCounter + 1,
              trace := s2.trace ++ [Event.rmtreeE ("/tmp/tmp" ++ toString s.tmpCounter) (.err en)] }) := by
        simp [check_patch, mkdtemp, hbody, rmtreeCall, hrm, hen, ENOENT]
      rw [hc]
      refine ⟨Event.mkdtempE ("/tmp/tmp" ++ toString s.tmpCounter) :: (Δb ++
        [Event.rmtreeE ("/tmp/tmp" ++ toString s.tmpCounter) (.err en)]), ⟨ha, hb2, hc2, ?_⟩, ?_, ?_⟩
      · rw [hd]
        simp
      · exact stageOut_cons _ rfl (stageOut_concat _ rfl rfl (by simpa using h2))
      · rw [← hrm]
        exact hbuild
    · have hc : check_patch b s = (.error (.uncaught .osErr),
          { s2 with
              rmCounter := s2.rmCounter + 1,
              trace := s2.trace ++ [Event.rmtreeE ("/tmp/tmp" ++ toString s.tmpCounter) (.err en)] }) := by
        simp [check_patch, mkdtemp, hbody, rmtreeCall, hrm, ENOENT, if_neg hen]
      rw [hc]
      refine ⟨Event.mkdtempE ("/tmp/tmp" ++ toString s.tmpCounter) :: (Δb ++
        [Event.rmtreeE ("/tmp/tmp" ++ toString s.tmpCounter) (.err en)]), ⟨ha, hb2, hc2, ?_⟩, ?_, ?_⟩
      · rw [hd]
        simp
      · refine stageOut_retarget (show stageOut b resb _ from ?_) (by simp [exitCode])
        exact stageOut_cons _ rfl (stageOut_concat _ rfl rfl (by simpa using h2))
      · rw [← hrm]
        exact hbuild

/-- Tail of one loop iteration from the patch stage on. -/
lemma mainLoop_tail_patch (opts : Opts) (compilers : List String) (i : Nat)
    (rest : List (String × String))
    (hrest : ∀ u : ExecState, ∃ Δ, stepsTo u (mainLoop opts compilers (i + 1) rest u).2 Δ ∧
      stageOut opts.exit_on_err (mainLoop opts compilers (i + 1) rest u).1 Δ ∧
      (opts.build_type = "skip" → buildCmdsOf Δ = [])) :
    ∀ t : ExecState, ∃ Δ,
      stepsTo t (bindStep (if opts.run_checkpatch = "yes" then check_patch opts.exit_on_err t
          else (.ok (), t)) (fun _ s => mainLoop opts compilers (i + 1) rest s)).2 Δ ∧
      stageOut opts.exit_on_err (bindStep (if opts.run_checkpatch = "yes" then
          check_patch opts.exit_on_err t else (.ok (), t))
        (fun _ s => mainLoop opts compilers (i + 1) rest s)).1 Δ ∧
      (opts.build_type = "skip" → buildCmdsOf Δ = []) := by
  intro t
  by_cases hcp : opts.run_checkpatch = "yes"
  · rw [if_pos hcp]
    obtain ⟨Δ₁, h1, h2, h3⟩ := check_patch_stageOut opts.exit_on_err t
    refine stageOut_bindStep _ _ _ Δ₁ h1 h2 (fun _ => h3) ?_
    intro a ha
    exact hrest _
  · rw [if_neg hcp]
    refine stageOut_bindStep _ _ _ [] (stepsTo_rfl t) stageOut_nil (fun _ => rfl) ?_
    intro a ha
    exact hrest _

/-- Tail of one loop iteration from the build stage on. -/
lemma mainLoop_tail_builds (opts : Opts) (compilers : List String) (i : Nat)
    (rest : List (String × String))
    (hrest : ∀ u : ExecState, ∃ Δ, stepsTo u (mainLoop opts compilers (i + 1) rest u).2 Δ ∧
      stageOut opts.exit_on_err (mainLoop opts compilers (i + 1) rest u).1 Δ ∧
      (opts.build_type = "skip" → buildCmdsOf Δ = [])) :
    ∀ t : ExecState, ∃ Δ,
      stepsTo t (bindStep (if opts.build_type ≠ "skip" then
          check_builds opts.exit_on_err compilers opts.build_type opts.num_jobs opts.exit_on_err t
          else (.ok (), t)) (fun _ s =>
        bindStep (if opts.run_checkpatch = "yes" then check_patch opts.exit_on_err s
            else (.ok (), s)) (fun _ s => mainLoop opts compilers (i + 1) rest s))).2 Δ ∧
      stageOut opts.exit_on_err (bindStep (if opts.build_type ≠ "skip" then
          check_builds opts.exit_on_err compilers opts.build_type opts.num_jobs opts.exit_on_err t
          else (.ok (), t)) (fun _ s =>
        bindStep (if opts.run_checkpatch = "yes" then check_patch opts.exit_on_err s
            else (.ok (), s)) (fun _ s => mainLoop opts compilers (i + 1) rest s))).1 Δ ∧
      (opts.build_type = "skip" → buildCmdsOf Δ = []) := by
  intro t
  by_cases hsk : opts.build_type = "skip"
  · rw [if_neg (by simp [hsk])]
    refine stageOut_bindStep _ _ _ [] (stepsTo_rfl t) stageOut_nil (fun _ => rfl) ?_
    intro a ha
    exact mainLoop_tail_patch opts compilers i rest hrest _
  · rw [if_pos hsk]
    obtain ⟨Δ₁, h1, h2⟩ := check_builds_stageOut opts.exit_on_err compilers opts.build_type
      opts.num_jobs opts.exit_on_err t
    refine stageOut_bindStep _ _ _ Δ₁ h1 h2 (fun hskip => absurd hskip hsk) ?_
    intro a ha
    exact mainLoop_tail_patch opts compilers i rest hrest _

/-- Tail of one loop iteration from the message-style check on. -/
lemma mainLoop_tail_cgl (opts : Opts) (compilers : List String) (i : Nat)
    (rest : List (String × String))
    (hrest : ∀ u : ExecState, ∃ Δ, stepsTo u (mainLoop opts compilers (i + 1) rest u).2 Δ ∧
      stageOut opts.exit_on_err (mainLoop opts compilers (i + 1) rest u).1 Δ ∧
      (opts.build_type = "skip" → buildCmdsOf Δ = [])) :
    ∀ t : ExecState, ∃ Δ,
      stepsTo t (bindStep (if opts.run_checkgitlog = "yes" then check_git_log opts.exit_on_err t
          else (.ok (), t)) (fun _ s =>
        bindStep (if opts.build_type ≠ "skip" then
            check_builds opts.exit_on_err compilers opts.build_type opts.num_jobs opts.exit_on_err s
            else (.ok (), s)) (fun _ s =>
          bindStep (if opts.run_checkpatch = "yes" then check_patch opts.exit_on_err s
              else (.ok (), s)) (fun _ s => mainLoop opts compilers (i + 1) rest s)))).2 Δ ∧
      stageOut opts.exit_on_err (bindStep (if opts.run_checkgitlog = "yes" then
          check_git_log opts.exit_on_err t else (.ok (), t)) (fun _ s =>
        bindStep (if opts.build_type ≠ "skip" then
            check_builds opts.exit_on_err compilers opts.build_type opts.num_jobs opts.exit_on_err s
            else (.ok (), s)) (fun _ s =>
          bindStep (if opts.run_checkpatch = "yes" then check_patch opts.exit_on_err s
              else (.ok (), s)) (fun _ s => mainLoop opts compilers (i + 1) rest s)))).1 Δ ∧
      (opts.build_type = "skip" → buildCmdsOf Δ = []) := by
  intro t
  by_cases hcg : opts.run_checkgitlog = "yes"
  · rw [if_pos hcg]
    obtain ⟨Δ₁, h1, h2, h3⟩ := check_git_log_stageOut opts.exit_on_err t
    refine stageOut_bindStep _ _ _ Δ₁ h1 h2 (fun _ => h3) ?_
    intro a ha
    exact mainLoop_tail_builds opts compilers i rest hrest _
  · rw [if_neg hcg]
    refine stageOut_bindStep _ _ _ [] (stepsTo_rfl t) stageOut_nil (fun _ => rfl) ?_
    intro a ha
    exact mainLoop_tail_builds opts compilers i rest hrest _

lemma stepsTo_emit_pre {s s2 : ExecState} {Δ : List Event} {m : String}
    (h : stepsTo (emitOut s m) s2 Δ) : stepsTo s s2 (Event.out m :: Δ) := by
  obtain ⟨ha, hb, hc, hd⟩ := h
  exact ⟨ha, hb, hc, by rw [hd]; simp [emitOut]⟩

lemma mainLoop_stageOut (opts : Opts) (compilers : List String) :
    ∀ (commits : List (String × String)) (i : Nat) (s : ExecState),
      ∃ Δ, stepsTo s (mainLoop opts compilers i commits s).2 Δ ∧
        stageOut opts.exit_on_err (mainLoop opts compilers i commits s).1 Δ ∧
        (opts.build_type = "skip" → buildCmdsOf Δ = []) := by
  intro commits
  induction commits with
  | nil =>
    intro i s
    exact ⟨[], stepsTo_rfl s, stageOut_nil, fun _ => rfl⟩
  | cons c rest ih =>
    intro i s
    have hm : mainLoop opts compilers i (c :: rest) s =
        bindStep (checkout_commit_with_hash c.1
          (emitOut (if i > 0 then emitOut s "\n==========================================\n\n" else s)
            ("Commit: " ++ c.2 ++ "\n"))) (fun _ s =>
        bindStep (if opts.run_checkgitlog = "yes" then check_git_log opts.exit_on_err s
                  else (.ok (), s)) (fun _ s =>
        bindStep (if opts.build_type ≠ "skip" then
                    check_builds opts.exit_on_err compilers opts.build_type opts.num_jobs
                      opts.exit_on_err s
                  else (.ok (), s)) (fun _ s =>
        bindStep (if opts.run_checkpatch = "yes" then check_patch opts.exit_on_err s
                  else (.ok (), s)) (fun _ s =>
        mainLoop opts compilers (i + 1) rest s)))) := by
      simp only [mainLoop]
    rw [hm]
    by_cases hi : i > 0
    · rw [if_pos hi]
      obtain ⟨Δ₁, h1, h2, h3⟩ := checkout_stageOut opts.exit_on_err c.1
        (emitOut (emitOut s "\n==========================================\n\n")
          ("Commit: " ++ c.2 ++ "\n"))
      refine stageOut_bindStep _ _ _
        (Event.out "\n==========================================\n\n" ::
          Event.out ("Commit: " ++ c.2 ++ "\n") :: Δ₁)
        (stepsTo_emit_pre (stepsTo_emit_pre h1))
        (stageOut_cons _ rfl (stageOut_cons _ rfl h2)) ?_ ?_
      · intro hs
        simp [buildCmdsOf] at h3 ⊢
        exact h3
      · intro a ha
        exact mainLoop_tail_cgl opts compilers i rest (fun u => ih (i + 1) u) _
    · rw [if_neg hi]
      obtain ⟨Δ₁, h1, h2, h3⟩ := checkout_stageOut opts.exit_on_err c.1
        (emitOut s ("Commit: " ++ c.2 ++ "\n"))
      refine stageOut_bindStep _ _ _
        (Event.out ("Commit: " ++ c.2 ++ "\n") :: Δ₁)
        (stepsTo_emit_pre h1)
        (stageOut_cons _ rfl h2) ?_ ?_
      · intro hs
        simp [buildCmdsOf] at h3 ⊢
        exact h3
      · intro a ha
        exact mainLoop_tail_cgl opts compilers i rest (fun u => ih (i + 1) u) _

lemma main_stageOut (opts : Opts) (args : List String) (s : ExecState) :
    ∃ Δ, stepsTo s (main' opts args s).2 Δ ∧
      stageOut opts.exit_on_err (main' opts args s).1 Δ ∧
      (opts.build_type = "skip" → buildCmdsOf Δ = []) := by
  have hrest : ∀ (t : ExecState) (a b2 : String), ∃ Δ,
      stepsTo t (bindStep (get_commit_list a b2 t)
        (fun ct s => mainLoop opts (compilersOf opts) 0 ct s)).2 Δ ∧
      stageOut opts.exit_on_err (bindStep (get_commit_list a b2 t)
        (fun ct s => mainLoop opts (compilersOf opts) 0 ct s)).1 Δ ∧
      (opts.build_type = "skip" → buildCmdsOf Δ = []) := by
    intro t a b2
    obtain ⟨Δ₁, h1, h2, h3⟩ := get_commit_list_stageOut opts.exit_on_err a b2 t
    refine stageOut_bindStep _ _ _ Δ₁ h1 h2 (fun _ => h3) ?_
    intro ct hct
    exact mainLoop_stageOut opts (compilersOf opts) ct 0 _
  rcases args with _ | ⟨a, _ | ⟨b2, rest⟩⟩
  · have hc : main' opts [] s = (.error (.exited 1), emitOut s usageText) := by
      simp [main']
    rw [hc]
    refine ⟨[Event.out usageText], ⟨rfl, rfl, rfl, rfl⟩, ?_, fun _ => rfl⟩
    refine ⟨oserrSpec_of_noLaunch ?_, fun _ => stopsAfterFail_of_noFail ?_⟩ <;>
      · intro e he
        simp at he
        rw [he]
        rfl
  · have hc : main' opts [a] s = (.error (.exited 1), emitOut s usageText) := by
      simp [main']
    rw [hc]
    refine ⟨[Event.out usageText], ⟨rfl, rfl, rfl, rfl⟩, ?_, fun _ => rfl⟩
    refine ⟨oserrSpec_of_noLaunch ?_, fun _ => stopsAfterFail_of_noFail ?_⟩ <;>
      · intro e he
        simp at he
        rw [he]
        rfl
  · have hm : main' opts (a :: b2 :: rest) s =
        bindStep (if opts.repo_dir ≠ "" then
            (if s.chdirFails then (.error (.exited 1),
              emitErr s ("Error: Could not change to repo directory: " ++ opts.repo_dir ++ "\n"))
            else (.ok (), s))
          else (.ok (), s))
          (fun _ s => bindStep (get_commit_list a b2 s)
            (fun ct s => mainLoop opts (compilersOf opts) 0 ct s)) := by
      simp only [main']
    rw [hm]
    by_cases hrd : opts.repo_dir = ""
    · rw [if_neg (by simp [hrd])]
      refine stageOut_bindStep _ _ _ [] (stepsTo_rfl s) stageOut_nil (fun _ => rfl) ?_
      intro u hu
      exact hrest s a b2
    · rw [if_pos hrd]
      by_cases hch : s.chdirFails
      · rw [if_pos hch]
        refine stageOut_bindStep _ _ _
          [Event.err ("Error: Could not change to repo directory: " ++ opts.repo_dir ++ "\n")]
          ⟨rfl, rfl, rfl, rfl⟩ ?_ (fun _ => rfl) ?_
        · refine ⟨oserrSpec_of_noLaunch ?_, fun _ => stopsAfterFail_of_noFail ?_⟩ <;>
            · intro e he
              simp at he
              rw [he]
              rfl
        · intro u hu
          exact absurd hu (by simp)
      · rw [if_neg hch]
        refine stageOut_bindStep _ _ _ [] (stepsTo_rfl s) stageOut_nil (fun _ => rfl) ?_
        intro u hu
        exact hrest s a b2

/-- C2: with the exit-on-error policy enabled, any failing completed check —
message-style, a build configuration, or patch-style — found anywhere in the
run's trace terminates the whole process with a nonzero status: after the
failing invocation its captured output is reported on stderr and no further
command of any kind (no build configuration of the current revision and no
later revision's checkout or check) is ever invoked. -/
theorem exit_on_error_first_failure_stops_run (opts : Opts) (args : List String)
    (s : ExecState) (hexit : opts.exit_on_err = true) (h0 : s.trace = []) :
    stopsAfterFail (main' opts args s).1 (main' opts args s).2.trace := by
  obtain ⟨Δ, h1, h2, _⟩ := main_stageOut opts args s
  rw [h1.2.2.2, h0, List.nil_append]
  exact h2.2 hexit

/-- World for the C2 witness: the message-style check fails, everything else
succeeds. -/
def c2World : Nat → List String → CmdResult := fun _ cmd =>
  if cmd = checkGitLogCmd then .fail 1 "bad subject line" else .ok "h1 fix things"

/-- Closed instance of the C2 theorem on a run whose message-style check
fails under `exit_on_err = true`. -/
theorem exit_on_error_first_failure_stops_run_witness :
    stopsAfterFail
      (main' { defaultOpts "/repo" with exit_on_err := true } ["a", "b"]
        (mkInit c2World rmOkWorld)).1
      (main' { defaultOpts "/repo" with exit_on_err := true } ["a", "b"]
        (mkInit c2World rmOkWorld)).2.trace :=
  exit_on_error_first_failure_stops_run _ _ _ rfl rfl

/-- C8: an inability to launch an external check command (`OSError`) anywhere
in a run — the message-style check, any build invocation, or the patch-style
check alike — is fatal regardless of the exit-on-error policy: the run's
result has a nonzero exit status, nothing further is invoked after the failed
launch, and no check-failure report (`Fail.`/`Failed.`) is printed for it, so
it is never conflated with the check itself failing. -/
theorem launch_failure_always_fatal (opts : Opts) (args : List String) (s : ExecState)
    (h0 : s.trace = []) :
    oserrSpec (main' opts args s).1 (main' opts args s).2.trace := by
  obtain ⟨Δ, h1, h2, _⟩ := main_stageOut opts args s
  rw [h1.2.2.2, h0, List.nil_append]
  exact h2.1

/-- World for the C8 witness: the build script cannot be launched, everything
else succeeds. -/
def c8World : Nat → List String → CmdResult := fun _ cmd =>
  match cmd with
  | "devtools/test-build.sh" :: _ => .oserror
  | _ => .ok "h1 fix things"

/-- Closed instance of the C8 theorem on a run whose build script cannot be
launched, under the continue-on-error policy. -/
theorem launch_failure_always_fatal_witness :
    oserrSpec
      (main' { defaultOpts "/repo" with num_jobs := .str "2" } ["a", "b"]
        (mkInit c8World rmOkWorld)).1
      (main' { defaultOpts "/repo" with num_jobs := .str "2" } ["a", "b"]
        (mkInit c8World rmOkWorld)).2.trace :=
  launch_failure_always_fatal _ _ _ rfl

/-! ### Completed-run lemmas: worlds without fatal conditions -/

/-- No external command ever fails to launch. -/
def noLaunchW (w : Nat → List String → CmdResult) : Prop :=
  ∀ (k : Nat) (c : List String), w k c ≠ .oserror

/-- Every `git checkout` invocation succeeds. -/
def checkoutOkW (w : Nat → List String → CmdResult) : Prop :=
  ∀ (k : Nat) (h : String), ∃ o, w k ["git", "checkout", h] = .ok o

/-- No external command ever exits nonzero. -/
def noFailW (w : Nat → List String → CmdResult) : Prop :=
  ∀ (k : Nat) (c : List String) (rc : Int) (o : String), w k c ≠ .fail rc o

/-- Every cleanup failure is a missing-directory condition. -/
def rmBenignW (rw : Nat → String → RmRes) : Prop :=
  ∀ (k : Nat) (d : String) (en : Nat), rw k d = .err en → en = ENOENT

/-- The revisions checked out in a trace, in order. -/
def checkoutsOf (tr : List Event) : List String :=
  tr.filterMap fun e => match e with
    | .invoke ["git", "checkout", h] _ => some h
    | _ => none

/-- How many times the message-style check was invoked in a trace. -/
def cglCountOf (tr : List Event) : Nat :=
  (tr.filterMap fun e => match e with
    | .invoke ("devtools/check-git-log.sh" :: r) _ => some r
    | _ => none).length

/-- Every failing invocation recorded in the trace has its captured output
reported on stderr somewhere in the trace. -/
def failReported (tr : List Event) : Prop :=
  ∀ (cmd : List String) (rc : Int) (o : String),
    Event.invoke cmd (CmdResult.fail rc o) ∈ tr →
    ∃ (pre : String), Event.err (pre ++ o ++ "\n") ∈ tr

/-- Bundled projections of one stage's events. -/
def stageΔ (Δ : List Event) (cks : List String) (ncgl : Nat) (bcs : List (List String)) : Prop :=
  checkoutsOf Δ = cks ∧ cglCountOf Δ = ncgl ∧ buildCmdsOf Δ = bcs ∧ failReported Δ

lemma stageΔ_nil : stageΔ [] [] 0 [] :=
  ⟨rfl, rfl, rfl, fun _ _ _ h => absurd h (by simp)⟩

lemma checkoutsOf_append (Δ₁ Δ₂ : List Event) :
    checkoutsOf (Δ₁ ++ Δ₂) = checkoutsOf Δ₁ ++ checkoutsOf Δ₂ := by
  simp [checkoutsOf, List.filterMap_append]

lemma cglCountOf_append (Δ₁ Δ₂ : List Event) :
    cglCountOf (Δ₁ ++ Δ₂) = cglCountOf Δ₁ + cglCountOf Δ₂ := by
  simp [cglCountOf, List.filterMap_append]

lemma failReported_append {Δ₁ Δ₂ : List Event}
    (h1 : failReported Δ₁) (h2 : failReported Δ₂) : failReported (Δ₁ ++ Δ₂) := by
  intro cmd rc o hmem
  rcases List.mem_append.mp hmem with hm | hm
  · obtain ⟨pre, hp⟩ := h1 cmd rc o hm
    exact ⟨pre, List.mem_append.mpr (.inl hp)⟩
  · obtain ⟨pre, hp⟩ := h2 cmd rc o hm
    exact ⟨pre, List.mem_append.mpr (.inr hp)⟩

lemma stageΔ_append {Δ₁ Δ₂ : List Event} {a a2 : List String} {n n2 : Nat}
    {b b2 : List (List String)} (h1 : stageΔ Δ₁ a n b) (h2 : stageΔ Δ₂ a2 n2 b2) :
    stageΔ (Δ₁ ++ Δ₂) (a ++ a2) (n + n2) (b ++ b2) := by
  refine ⟨?_, ?_, ?_, failReported_append h1.2.2.2 h2.2.2.2⟩
  · rw [checkoutsOf_append, h1.1, h2.1]
  · rw [cglCountOf_append, h1.2.1, h2.2.1]
  · rw [buildCmdsOf_append, h1.2.2.1, h2.2.2.1]

lemma bindStep_ok {α : Type} (f : Except Term α × ExecState) (g : α → ExecState → StepRes)
    (a : α) (h : f.1 = .ok a) : bindStep f g = g a f.2 := by
  rcases f with ⟨res, s1⟩
  cases res with
  | error t => simp at h
  | ok a2 =>
    simp at h
    rw [h]
    rfl

/-- The expected build-matrix commands for a compiler list, in plan order. -/
def expectedBuildCmds (bt jarg : String) : List String → List (List String)
  | [] => []
  | c :: rest =>
    testBuildCmd jarg bt ("x86_64-native-linuxapp-" ++ c) ::
    testBuildCmd jarg bt ("x86_64-native-linuxapp-" ++ c ++ "+shared") ::
    expectedBuildCmds bt jarg rest

lemma checkout_completes (h : String) (s : ExecState) (hco : checkoutOkW s.world) :
    (checkout_commit_with_hash h s).1 = .ok () ∧
    ∃ Δ, stepsTo s (checkout_commit_with_hash h s).2 Δ ∧ stageΔ Δ [h] 0 [] := by
  obtain ⟨o, ho⟩ := hco s.counter h
  have hc : checkout_commit_with_hash h s = (.ok (),
      { s with counter := s.counter + 1,
               trace := s.trace ++ [Event.invoke (checkoutCmd h) (.ok o)] }) := by
    simp [checkout_commit_with_hash, call, checkoutCmd, ho]
  rw [hc]
  refine ⟨rfl, [Event.invoke (checkoutCmd h) (.ok o)], ⟨rfl, rfl, rfl, rfl⟩,
    rfl, rfl, rfl, ?_⟩
  intro cmd rc o2 hm
  simp [checkoutCmd] at hm

lemma check_git_log_completes (b : Bool) (s : ExecState)
    (hnl : noLaunchW s.world) (hpol : b = false ∨ noFailW s.world) :
    (check_git_log b s).1 = .ok () ∧
    ∃ Δ, stepsTo s (check_git_log b s).2 Δ ∧ stageΔ Δ [] 1 [] := by
  rcases hq : s.world s.counter checkGitLogCmd with o | ⟨rc, o⟩ | _
  · have hc : check_git_log b s = (.ok (),
        { s with counter := s.counter + 1,
                 trace := s.trace ++
                   [Event.out ("Running: \"" ++ joinSpace checkGitLogCmd ++ "\"... "),
                    Event.invoke checkGitLogCmd (.ok o), Event.out "Passed.\n"] }) := by
      simp [check_git_log, call, emitOut, hq]
    rw [hc]
    refine ⟨rfl, _, ⟨rfl, rfl, rfl, rfl⟩, rfl, rfl, rfl, ?_⟩
    intro cmd rc o2 hm
    simp [checkGitLogCmd] at hm
  · rcases hpol with hb | hnf
    · have hc : check_git_log b s = (.ok (),
          { s with counter := s.counter + 1,
                   trace := s.trace ++
                     [Event.out ("Running: \"" ++ joinSpace checkGitLogCmd ++ "\"... "),
                      Event.invoke checkGitLogCmd (.fail rc o), Event.out "Fail.\n",
                      Event.err ("Output:" ++ o ++ "\n")] }) := by
        simp [check_git_log, call, emitOut, emitErr, hq, hb]
      rw [hc]
      refine ⟨rfl, _, ⟨rfl, rfl, rfl, rfl⟩, rfl, rfl, rfl, ?_⟩
      intro cmd rc2 o2 hm
      simp [checkGitLogCmd] at hm
      exact ⟨"Output:", by simp [hm.2.2]⟩
    · exact absurd hq (hnf _ _ _ _)
  · exact absurd hq (hnl _ _)

lemma run_test_build_completes (b : Bool) (bt ar j : String) (s : ExecState)
    (hnl : noLaunchW s.world) (hpol : b = false ∨ noFailW s.world) :
    (run_test_build b bt ar (.str j) s).1 = .ok () ∧
    ∃ Δ, stepsTo s (run_test_build b bt ar (.str j) s).2 Δ ∧
      stageΔ Δ [] 0 [testBuildCmd ("-j" ++ j) bt ar] := by
  rcases hq : s.world s.counter (testBuildCmd ("-j" ++ j) bt ar) with o | ⟨rc, o⟩ | _
  · have hc : run_test_build b bt ar (.str j) s = (.ok (),
        { s with counter := s.counter + 1,
                 trace := s.trace ++
                   [Event.out ("Running: \"" ++ joinSpace (testBuildCmd ("-j" ++ j) bt ar) ++ "\"... "),
                    Event.invoke (testBuildCmd ("-j" ++ j) bt ar) (.ok o),
                    Event.out "Passed.\n"] }) := by
      simp [run_test_build, pyConcat, call, emitOut, hq]
    rw [hc]
    refine ⟨rfl, _, ⟨rfl, rfl, rfl, rfl⟩, ?_, ?_, ?_, ?_⟩
    · simp [checkoutsOf, testBuildCmd]
    · simp [cglCountOf, testBuildCmd]
    · simp [buildCmdsOf, testBuildCmd]
    · intro cmd rc o2 hm
      simp [testBuildCmd] at hm
  · rcases hpol with hb | hnf
    · have hc : run_test_build b bt ar (.str j) s = (.ok (),
          { s with counter := s.counter + 1,
                   trace := s.trace ++
                     [Event.out ("Running: \"" ++ joinSpace (testBuildCmd ("-j" ++ j) bt ar) ++ "\"... "),
                      Event.invoke (testBuildCmd ("-j" ++ j) bt ar) (.fail rc o),
                      Event.out "Failed.\n",
                      Event.err ("Output:\n" ++ o ++ "\n")] }) := by
        simp [run_test_build, pyConcat, call, emitOut, emitErr, hq, hb]
      rw [hc]
      refine ⟨rfl, _, ⟨rfl, rfl, rfl, rfl⟩, ?_, ?_, ?_, ?_⟩
      · simp [checkoutsOf, testBuildCmd]
      · simp [cglCountOf, testBuildCmd]
      · simp [buildCmdsOf, testBuildCmd]
      · intro cmd rc2 o2 hm
        simp [testBuildCmd] at hm
        exact ⟨"Output:\n", by simp [hm.2.2]⟩
    · exact absurd hq (hnf _ _ _ _)
  · exact absurd hq (hnl _ _)

lemma check_builds_completes (b : Bool) (compilers : List String) (bt j : String) (b2 : Bool) :
    ∀ s : ExecState, noLaunchW s.world → (b = false ∨ noFailW s.world) →
    (check_builds b compilers bt (.str j) b2 s).1 = .ok () ∧
    ∃ Δ, stepsTo s (check_builds b compilers bt (.str j) b2 s).2 Δ ∧
      stageΔ Δ [] 0 (expectedBuildCmds bt ("-j" ++ j) compilers) := by
  induction compilers with
  | nil =>
    intro s hnl hpol
    exact ⟨rfl, [], stepsTo_rfl s, stageΔ_nil⟩
  | cons c rest ih =>
    intro s hnl hpol
    have hmain : check_builds b (c :: rest) bt (.str j) b2 s =
        bindStep (run_test_build b bt ("x86_64-native-linuxapp-" ++ c) (.str j) s) (fun _ s =>
          bindStep (run_test_build b bt ("x86_64-native-linuxapp-" ++ c ++ "+shared") (.str j) s)
            (fun _ s => check_builds b rest bt (.str j) b2 s)) := by
      simp [check_builds]
    obtain ⟨r1, Δ₁, hst1, hΔ1⟩ :=
      run_test_build_completes b bt ("x86_64-native-linuxapp-" ++ c) j s hnl hpol
    have hnl1 : noLaunchW (run_test_build b bt ("x86_64-native-linuxapp-" ++ c) (.str j) s).2.world := by
      rw [hst1.1]
      exact hnl
    have hpol1 : b = false ∨
        noFailW (run_test_build b bt ("x86_64-native-linuxapp-" ++ c) (.str j) s).2.world := by
      rcases hpol with hb | hnf
      · exact .inl hb
      · exact .inr (by rw [hst1.1]; exact hnf)
    obtain ⟨r2, Δ₂, hst2, hΔ2⟩ :=
      run_test_build_completes b bt ("x86_64-native-linuxapp-" ++ c ++ "+shared") j
        (run_test_build b bt ("x86_64-native-linuxapp-" ++ c) (.str j) s).2 hnl1 hpol1
    have hnl2 : noLaunchW (run_test_build b bt ("x86_64-native-linuxapp-" ++ c ++ "+shared") (.str j)
        (run_test_build b bt ("x86_64-native-linuxapp-" ++ c) (.str j) s).2).2.world := by
      rw [hst2.1]
      exact hnl1
    have hpol2 : b = false ∨
        noFailW (run_test_build b bt ("x86_64-native-linuxapp-" ++ c ++ "+shared") (.str j)
          (run_test_build b bt ("x86_64-native-linuxapp-" ++ c) (.str j) s).2).2.world := by
      rcases hpol with hb | hnf
      · exact .inl hb
      · refine .inr ?_
        rw [hst2.1, hst1.1]
        exact hnf
    obtain ⟨r3, Δ₃, hst3, hΔ3⟩ := ih _ hnl2 hpol2
    rw [hmain, bindStep_ok _ _ () r1, bindStep_ok _ _ () r2]
    refine ⟨r3, Δ₁ ++ (Δ₂ ++ Δ₃), stepsTo_trans hst1 (stepsTo_trans hst2 hst3), ?_⟩
    have hfin := stageΔ_append hΔ1 (stageΔ_append hΔ2 hΔ3)
    simpa [expectedBuildCmds] using hfin

lemma noLaunchW_of_stepsTo {s s2 : ExecState} {Δ : List Event}
    (h : stepsTo s s2 Δ) (hn : noLaunchW s.world) : noLaunchW s2.world := by
  rw [h.1]
  exact hn

lemma checkoutOkW_of_stepsTo {s s2 : ExecState} {Δ : List Event}
    (h : stepsTo s s2 Δ) (hn : checkoutOkW s.world) : checkoutOkW s2.world := by
  rw [h.1]
  exact hn

lemma rmBenignW_of_stepsTo {s s2 : ExecState} {Δ : List Event}
    (h : stepsTo s s2 Δ) (hn : rmBenignW s.rmWorld) : rmBenignW s2.rmWorld := by
  rw [h.2.1]
  exact hn

lemma polW_of_stepsTo {b : Bool} {s s2 : ExecState} {Δ : List Event}
    (h : stepsTo s s2 Δ) (hp : b = false ∨ noFailW s.world) :
    b = false ∨ noFailW s2.world := by
  rcases hp with hb | hf
  · exact .inl hb
  · exact .inr (by rw [h.1]; exact hf)

lemma checkPatchBody_completes (b : Bool) (d : String) (s : ExecState)
    (hnl : noLaunchW s.world) (hpol : b = false ∨ noFailW s.world) :
    (checkPatchBody b d s).1 = .ok () ∧
    ∃ Δ, stepsTo s (checkPatchBody b d s).2 Δ ∧ stageΔ Δ [] 0 [] := by
  rcases hfmt : s.world s.counter (formatPatchCmd d) with o | ⟨rc, o⟩ | _
  · rcases hcp : s.world (s.counter + 1) (checkPatchesCmd (pyRstrip o)) with o2 | ⟨rc2, o2⟩ | _
    · have hc : checkPatchBody b d s = (.ok (),
          { s with counter := s.counter + 2,
                   trace := s.trace ++
                     [Event.invoke (formatPatchCmd d) (.ok o),
                      Event.out ("Running: \"" ++ joinSpace (checkPatchesCmd (pyRstrip o)) ++ "\"... "),
                      Event.invoke (checkPatchesCmd (pyRstrip o)) (.ok o2),
                      Event.out "Passed.\n"] }) := by
        simp [checkPatchBody, call, emitOut, hfmt, hcp]
      rw [hc]
      refine ⟨rfl, _, ⟨rfl, rfl, rfl, rfl⟩, ?_, ?_, ?_, ?_⟩
      · simp [checkoutsOf, formatPatchCmd, checkPatchesCmd]
      · simp [cglCountOf, formatPatchCmd, checkPatchesCmd]
      · simp [buildCmdsOf, formatPatchCmd, checkPatchesCmd]
      · intro cmd rc o3 hm
        simp [formatPatchCmd, checkPatchesCmd] at hm
    · rcases hpol with hb | hnf
      · have hc : checkPatchBody b d s = (.ok (),
            { s with counter := s.counter + 2,
                     trace := s.trace ++
                       [Event.invoke (formatPatchCmd d) (.ok o),
                        Event.out ("Running: \"" ++ joinSpace (checkPatchesCmd (pyRstrip o)) ++ "\"... "),
                        Event.invoke (checkPatchesCmd (pyRstrip o)) (.fail rc2 o2),
                        Event.out "Failed.\n",
                        Event.err ("Output:\n" ++ o2 ++ "\n")] }) := by
          simp [checkPatchBody, call, emitOut, emitErr, hfmt, hcp, hb]
        rw [hc]
        refine ⟨rfl, _, ⟨rfl, rfl, rfl, rfl⟩, ?_, ?_, ?_, ?_⟩
        · simp [checkoutsOf, formatPatchCmd, checkPatchesCmd]
        · simp [cglCountOf, formatPatchCmd, checkPatchesCmd]
        · simp [buildCmdsOf, formatPatchCmd, checkPatchesCmd]
        · intro cmd rc3 o3 hm
          simp [formatPatchCmd, checkPatchesCmd] at hm
          exact ⟨"Output:\n", by simp [hm.2.2]⟩
      · exact absurd hcp (hnf _ _ _ _)
    · exact absurd hcp (hnl _ _)
  · rcases hpol with hb | hnf
    · have hc : checkPatchBody b d s = (.ok (),
          { s with counter := s.counter + 1,
                   trace := s.trace ++
                     [Event.invoke (formatPatchCmd d) (.fail rc o),
                      Event.out "Failed.\n",
                      Event.err ("Output:\n" ++ o ++ "\n")] }) := by
        simp [checkPatchBody, call, emitOut, emitErr, hfmt, hb]
      rw [hc]
      refine ⟨rfl, _, ⟨rfl, rfl, rfl, rfl⟩, ?_, ?_, ?_, ?_⟩
      · simp [checkoutsOf, formatPatchCmd]
      · simp [cglCountOf, formatPatchCmd]
      · simp [buildCmdsOf, formatPatchCmd]
      · intro cmd rc3 o3 hm
        simp [formatPatchCmd] at hm
        exact ⟨"Output:\n", by simp [hm.2.2]⟩
    · exact absurd hfmt (hnf _ _ _ _)
  · exact absurd hfmt (hnl _ _)

lemma check_patch_completes (b : Bool) (s : ExecState)
    (hnl : noLaunchW s.world) (hpol : b = false ∨ noFailW s.world)
    (hrm : rmBenignW s.rmWorld) :
    (check_patch b s).1 = .ok () ∧
    ∃ Δ, stepsTo s (check_patch b s).2 Δ ∧ stageΔ Δ [] 0 [] := by
  have hnl1 : noLaunchW (mkdtemp s).2.world := hnl
  have hpol1 : b = false ∨ noFailW (mkdtemp s).2.world := hpol
  obtain ⟨hok, Δb, hst, hΔ⟩ :=
    checkPatchBody_completes b ("/tmp/tmp" ++ toString s.tmpCounter) (mkdtemp s).2 hnl1 hpol1
  rcases hbody : checkPatchBody b ("/tmp/tmp" ++ toString s.tmpCounter) (mkdtemp s).2
    with ⟨resb, s2⟩
  rw [hbody] at hok hst
  simp only at hok hst
  simp only [mkdtemp] at hbody
  obtain ⟨ha, hb2, hc2, hd⟩ := hst
  simp only [mkdtemp] at ha hb2 hc2 hd
  have hrm2 : ∀ en : Nat, s2.rmWorld s2.rmCounter ("/tmp/tmp" ++ toString s.tmpCounter) = .err en →
      en = ENOENT := by
    intro en hen
    rw [hb2] at hen
    exact hrm _ _ _ hen
  have hΔfull : stageΔ (Event.mkdtempE ("/tmp/tmp" ++ toString s.tmpCounter) :: (Δb ++
      [Event.rmtreeE ("/tmp/tmp" ++ toString s.tmpCounter)
        (s2.rmWorld s2.rmCounter ("/tmp/tmp" ++ toString s.tmpCounter))])) [] 0 [] := by
    obtain ⟨p1, p2, p3, p4⟩ := hΔ
    refine ⟨?_, ?_, ?_, ?_⟩
    · simp [checkoutsOf, List.filterMap_append] at p1 ⊢
      exact p1
    · simp [cglCountOf, List.filterMap_append] at p2 ⊢
      exact p2
    · simp [buildCmdsOf, List.filterMap_append] at p3 ⊢
      exact p3
    · intro cmd rc o hm
      simp at hm
      obtain ⟨pre, hp⟩ := p4 cmd rc o hm
      exact ⟨pre, by simp [hp]⟩
  rcases hrmv : s2.rmWorld s2.rmCounter ("/tmp/tmp" ++ toString s.tmpCounter) with _ | en
  · have hc : check_patch b s = (resb,
        { s2 with
            rmCounter := s2.rmCounter + 1,
            trace := s2.trace ++ [Event.rmtreeE ("/tmp/tmp" ++ toString s.tmpCounter) .ok] }) := by
      simp [check_patch, mkdtemp, hbody, rmtreeCall, hrmv]
    rw [hc]
    refine ⟨hok, Event.mkdtempE ("/tmp/tmp" ++ toString s.tmpCounter) :: (Δb ++
        [Event.rmtreeE ("/tmp/tmp" ++ toString s.tmpCounter) .ok]),
      ⟨ha, hb2, hc2, ?_⟩, ?_⟩
    · rw [hd]
      simp
    · rw [hrmv] at hΔfull
      exact hΔfull
  · have hen := hrm2 en hrmv
    have hc : check_patch b s = (resb,
        { s2 with
            rmCounter := s2.rmCounter + 1,
            trace := s2.trace ++ [Event.rmtreeE ("/tmp/tmp" ++ toString s.tmpCounter) (.err en)] }) := by
      simp [check_patch, mkdtemp, hbody, rmtreeCall, hrmv, hen]
    rw [hc]
    refine ⟨hok, Event.mkdtempE ("/tmp/tmp" ++ toString s.tmpCounter) :: (Δb ++
        [Event.rmtreeE ("/tmp/tmp" ++ toString s.tmpCounter) (.err en)]),
      ⟨ha, hb2, hc2, ?_⟩, ?_⟩
    · rw [hd]
      simp
    · rw [hrmv] at hΔfull
      exact hΔfull

lemma mainLoopC_tail_patch (opts : Opts) (compilers : List String) (i : Nat)
    (rest : List (String × String))
    (hrest : ∀ u : ExecState, noLaunchW u.world → checkoutOkW u.world → rmBenignW u.rmWorld →
      (opts.exit_on_err = false ∨ noFailW u.world) →
      (mainLoop opts compilers (i + 1) rest u).1 = .ok () ∧
      ∃ Δ B, stepsTo u (mainLoop opts compilers (i + 1) rest u).2 Δ ∧
        stageΔ Δ (rest.map Prod.fst)
          (if opts.run_checkgitlog = "yes" then rest.length else 0) B) :
    ∀ t : ExecState, noLaunchW t.world → checkoutOkW t.world → rmBenignW t.rmWorld →
      (opts.exit_on_err = false ∨ noFailW t.world) →
      (bindStep (if opts.run_checkpatch = "yes" then check_patch opts.exit_on_err t
          else (.ok (), t)) (fun _ s => mainLoop opts compilers (i + 1) rest s)).1 = .ok () ∧
      ∃ Δ B, stepsTo t (bindStep (if opts.run_checkpatch = "yes" then
          check_patch opts.exit_on_err t else (.ok (), t))
        (fun _ s => mainLoop opts compilers (i + 1) rest s)).2 Δ ∧
        stageΔ Δ (rest.map Prod.fst)
          (if opts.run_checkgitlog = "yes" then rest.length else 0) B := by
  intro t hnl hco hrm hpol
  by_cases hcp : opts.run_checkpatch = "yes"
  · rw [if_pos hcp]
    obtain ⟨hok, Δ₁, hst, hΔ⟩ := check_patch_completes opts.exit_on_err t hnl hpol hrm
    rw [bindStep_ok _ _ () hok]
    obtain ⟨hok2, Δ₂, B, hst2, hΔ2⟩ := hrest _ (noLaunchW_of_stepsTo hst hnl)
      (checkoutOkW_of_stepsTo hst hco) (rmBenignW_of_stepsTo hst hrm) (polW_of_stepsTo hst hpol)
    refine ⟨hok2, Δ₁ ++ Δ₂, B, stepsTo_trans hst hst2, ?_⟩
    have h9 := stageΔ_append hΔ hΔ2
    simpa using h9
  · rw [if_neg hcp, bindStep_ok _ _ () rfl]
    exact hrest _ hnl hco hrm hpol

lemma mainLoopC_tail_builds (opts : Opts) (compilers : List String) (i : Nat) (j : String)
    (hj : opts.num_jobs = .str j) (rest : List (String × String))
    (hrest : ∀ u : ExecState, noLaunchW u.world → checkoutOkW u.world → rmBenignW u.rmWorld →
      (opts.exit_on_err = false ∨ noFailW u.world) →
      (mainLoop opts compilers (i + 1) rest u).1 = .ok () ∧
      ∃ Δ B, stepsTo u (mainLoop opts compilers (i + 1) rest u).2 Δ ∧
        stageΔ Δ (rest.map Prod.fst)
          (if opts.run_checkgitlog = "yes" then rest.length else 0) B) :
    ∀ t : ExecState, noLaunchW t.world → checkoutOkW t.world → rmBenignW t.rmWorld →
      (opts.exit_on_err = false ∨ noFailW t.world) →
      (bindStep (if opts.build_type ≠ "skip" then
          check_builds opts.exit_on_err compilers opts.build_type opts.num_jobs opts.exit_on_err t
          else (.ok (), t)) (fun _ s =>
        bindStep (if opts.run_checkpatch = "yes" then check_patch opts.exit_on_err s
            else (.ok (), s)) (fun _ s => mainLoop opts compilers (i + 1) rest s))).1 = .ok () ∧
      ∃ Δ B, stepsTo t (bindStep (if opts.build_type ≠ "skip" then
          check_builds opts.exit_on_err compilers opts.build_type opts.num_jobs opts.exit_on_err t
          else (.ok (), t)) (fun _ s =>
        bindStep (if opts.run_checkpatch = "yes" then check_patch opts.exit_on_err s
            else (.ok (), s)) (fun _ s => mainLoop opts compilers (i + 1) rest s))).2 Δ ∧
        stageΔ Δ (rest.map Prod.fst)
          (if opts.run_checkgitlog = "yes" then rest.length else 0) B := by
  intro t hnl hco hrm hpol
  rw [hj]
  by_cases hsk : opts.build_type = "skip"
  · rw [if_neg (by simp [hsk]), bindStep_ok _ _ () rfl]
    exact mainLoopC_tail_patch opts compilers i rest hrest t hnl hco hrm hpol
  · rw [if_pos hsk]
    obtain ⟨hok, Δ₁, hst, hΔ⟩ := check_builds_completes opts.exit_on_err compilers
      opts.build_type j opts.exit_on_err t hnl hpol
    rw [bindStep_ok _ _ () hok]
    obtain ⟨hok2, Δ₂, B, hst2, hΔ2⟩ := mainLoopC_tail_patch opts compilers i rest hrest _
      (noLaunchW_of_stepsTo hst hnl) (checkoutOkW_of_stepsTo hst hco)
      (rmBenignW_of_stepsTo hst hrm) (polW_of_stepsTo hst hpol)
    refine ⟨hok2, Δ₁ ++ Δ₂, expectedBuildCmds opts.build_type ("-j" ++ j) compilers ++ B,
      stepsTo_trans hst hst2, ?_⟩
    have h9 := stageΔ_append hΔ hΔ2
    simpa using h9

lemma mainLoopC_tail_cgl (opts : Opts) (compilers : List String) (i : Nat) (j : String)
    (hj : opts.num_jobs = .str j) (rest : List (String × String))
    (hrest : ∀ u : ExecState, noLaunchW u.world → checkoutOkW u.world → rmBenignW u.rmWorld →
      (opts.exit_on_err = false ∨ noFailW u.world) →
      (mainLoop opts compilers (i + 1) rest u).1 = .ok () ∧
      ∃ Δ B, stepsTo u (mainLoop opts compilers (i + 1) rest u).2 Δ ∧
        stageΔ Δ (rest.map Prod.fst)
          (if opts.run_checkgitlog = "yes" then rest.length else 0) B) :
    ∀ t : ExecState, noLaunchW t.world → checkoutOkW t.world → rmBenignW t.rmWorld →
      (opts.exit_on_err = false ∨ noFailW t.world) →
      (bindStep (if opts.run_checkgitlog = "yes" then check_git_log opts.exit_on_err t
          else (.ok (), t)) (fun _ s =>
        bindStep (if opts.build_type ≠ "skip" then
            check_builds opts.exit_on_err compilers opts.build_type opts.num_jobs opts.exit_on_err s
            else (.ok (), s)) (fun _ s =>
          bindStep (if opts.run_checkpatch = "yes" then check_patch opts.exit_on_err s
              else (.ok (), s)) (fun _ s => mainLoop opts compilers (i + 1) rest s)))).1 = .ok () ∧
      ∃ Δ B, stepsTo t (bindStep (if opts.run_checkgitlog = "yes" then
          check_git_log opts.exit_on_err t else (.ok (), t)) (fun _ s =>
        bindStep (if opts.build_type ≠ "skip" then
            check_builds opts.exit_on_err compilers opts.build_type opts.num_jobs opts.exit_on_err s
            else (.ok (), s)) (fun _ s =>
          bindStep (if opts.run_checkpatch = "yes" then check_patch opts.exit_on_err s
              else (.ok (), s)) (fun _ s => mainLoop opts compilers (i + 1) rest s)))).2 Δ ∧
        stageΔ Δ (rest.map Prod.fst)
          (if opts.run_checkgitlog = "yes" then rest.length + 1 else 0) B := by
  intro t hnl hco hrm hpol
  by_cases hcg : opts.run_checkgitlog = "yes"
  · rw [if_pos hcg]
    obtain ⟨hok, Δ₁, hst, hΔ⟩ := check_git_log_completes opts.exit_on_err t hnl hpol
    rw [bindStep_ok _ _ () hok]
    obtain ⟨hok2, Δ₂, B, hst2, hΔ2⟩ := mainLoopC_tail_builds opts compilers i j hj rest hrest _
      (noLaunchW_of_stepsTo hst hnl) (checkoutOkW_of_stepsTo hst hco)
      (rmBenignW_of_stepsTo hst hrm) (polW_of_stepsTo hst hpol)
    refine ⟨hok2, Δ₁ ++ Δ₂, B, stepsTo_trans hst hst2, ?_⟩
    have h9 := stageΔ_append hΔ hΔ2
    rw [hcg] at h9 ⊢
    simp at h9 ⊢
    simpa [Nat.add_comm] using h9
  · rw [if_neg hcg, bindStep_ok _ _ () rfl]
    obtain ⟨hok2, Δ₂, B, hst2, hΔ2⟩ := mainLoopC_tail_builds opts compilers i j hj rest hrest t
      hnl hco hrm hpol
    refine ⟨hok2, Δ₂, B, hst2, ?_⟩
    simpa [hcg] using hΔ2

lemma mainLoop_completes (opts : Opts) (compilers : List String) (j : String)
    (hj : opts.num_jobs = .str j) :
    ∀ (commits : List (String × String)) (i : Nat) (s : ExecState),
      noLaunchW s.world → checkoutOkW s.world → rmBenignW s.rmWorld →
      (opts.exit_on_err = false ∨ noFailW s.world) →
      (mainLoop opts compilers i commits s).1 = .ok () ∧
      ∃ Δ B, stepsTo s (mainLoop opts compilers i commits s).2 Δ ∧
        stageΔ Δ (commits.map Prod.fst)
          (if opts.run_checkgitlog = "yes" then commits.length else 0) B := by
  intro commits
  induction commits with
  | nil =>
    intro i s hnl hco hrm hpol
    refine ⟨rfl, [], [], stepsTo_rfl s, ?_⟩
    simpa using stageΔ_nil
  | cons c rest ih =>
    intro i s hnl hco hrm hpol
    have hm : mainLoop opts compilers i (c :: rest) s =
        bindStep (checkout_commit_with_hash c.1
          (emitOut (if i > 0 then emitOut s "\n==========================================\n\n" else s)
            ("Commit: " ++ c.2 ++ "\n"))) (fun _ s =>
        bindStep (if opts.run_checkgitlog = "yes" then check_git_log opts.exit_on_err s
                  else (.ok (), s)) (fun _ s =>
        bindStep (if opts.build_type ≠ "skip" then
                    check_builds opts.exit_on_err compilers opts.build_type opts.num_jobs
                      opts.exit_on_err s
                  else (.ok (), s)) (fun _ s =>
        bindStep (if opts.run_checkpatch = "yes" then check_patch opts.exit_on_err s
                  else (.ok (), s)) (fun _ s =>
        mainLoop opts compilers (i + 1) rest s)))) := by
      simp only [mainLoop]
    rw [hm]
    by_cases hi : i > 0
    · rw [if_pos hi]
      obtain ⟨hok, Δck, hstck, hΔck⟩ := checkout_completes c.1
        (emitOut (emitOut s "\n==========================================\n\n")
          ("Commit: " ++ c.2 ++ "\n")) hco
      rw [bindStep_ok _ _ () hok]
      obtain ⟨hok2, Δ₂, B, hst2, hΔ2⟩ := mainLoopC_tail_cgl opts compilers i j hj rest
        (fun u => ih (i + 1) u) _
        (noLaunchW_of_stepsTo hstck hnl) (checkoutOkW_of_stepsTo hstck hco)
        (rmBenignW_of_stepsTo hstck hrm) (polW_of_stepsTo hstck hpol)
      have hpre : stepsTo s
          (emitOut (emitOut s "\n==========================================\n\n")
            ("Commit: " ++ c.2 ++ "\n"))
          [Event.out "\n==========================================\n\n",
           Event.out ("Commit: " ++ c.2 ++ "\n")] :=
        ⟨rfl, rfl, rfl, by simp [emitOut]⟩
      refine ⟨hok2, [Event.out "\n==========================================\n\n",
        Event.out ("Commit: " ++ c.2 ++ "\n")] ++ (Δck ++ Δ₂), B,
        stepsTo_trans hpre (stepsTo_trans hstck hst2), ?_⟩
      have houts : stageΔ [Event.out "\n==========================================\n\n",
          Event.out ("Commit: " ++ c.2 ++ "\n")] [] 0 [] :=
        ⟨rfl, rfl, rfl, fun _ _ _ h => by simp at h⟩
      have h9 := stageΔ_append houts (stageΔ_append hΔck hΔ2)
      by_cases hcg : opts.run_checkgitlog = "yes" <;> simp [hcg] at h9 ⊢ <;> simpa using h9
    · rw [if_neg hi]
      obtain ⟨hok, Δck, hstck, hΔck⟩ := checkout_completes c.1
        (emitOut s ("Commit: " ++ c.2 ++ "\n")) hco
      rw [bindStep_ok _ _ () hok]
      obtain ⟨hok2, Δ₂, B, hst2, hΔ2⟩ := mainLoopC_tail_cgl opts compilers i j hj rest
        (fun u => ih (i + 1) u) _
        (noLaunchW_of_stepsTo hstck hnl) (checkoutOkW_of_stepsTo hstck hco)
        (rmBenignW_of_stepsTo hstck hrm) (polW_of_stepsTo hstck hpol)
      have hpre : stepsTo s (emitOut s ("Commit: " ++ c.2 ++ "\n"))
          [Event.out ("Commit: " ++ c.2 ++ "\n")] :=
        ⟨rfl, rfl, rfl, by simp [emitOut]⟩
      refine ⟨hok2, [Event.out ("Commit: " ++ c.2 ++ "\n")] ++ (Δck ++ Δ₂), B,
        stepsTo_trans hpre (stepsTo_trans hstck hst2), ?_⟩
      have houts : stageΔ [Event.out ("Commit: " ++ c.2 ++ "\n")] [] 0 [] :=
        ⟨rfl, rfl, rfl, fun _ _ _ h => by simp at h⟩
      have h9 := stageΔ_append houts (stageΔ_append hΔck hΔ2)
      by_cases hcg : opts.run_checkgitlog = "yes" <;> simp [hcg] at h9 ⊢ <;> simpa using h9

lemma get_commit_list_completes (a b2 : String) (s : ExecState) (o : String)
    (hq : s.world s.counter (gitLogCmd a b2) = .ok o) :
    (get_commit_list a b2 s).1 = .ok ((findallLog o).reverse) ∧
    ∃ Δ, stepsTo s (get_commit_list a b2 s).2 Δ ∧ stageΔ Δ [] 0 [] := by
  have hc : get_commit_list a b2 s = (.ok ((findallLog o).reverse),
      { s with counter := s.counter + 1,
               trace := s.trace ++ [Event.invoke (gitLogCmd a b2) (.ok o)] }) := by
    simp [get_commit_list, call, hq]
  rw [hc]
  refine ⟨rfl, _, ⟨rfl, rfl, rfl, rfl⟩, rfl, rfl, rfl, ?_⟩
  intro cmd rc o2 hm
  simp [gitLogCmd] at hm

lemma main_completes (opts : Opts) (a b2 : String) (rest : List String) (s : ExecState)
    (j : String) (hj : opts.num_jobs = .str j) (o : String)
    (hch : s.chdirFails = false)
    (hq : s.world s.counter (gitLogCmd a b2) = .ok o)
    (hnl : noLaunchW s.world) (hco : checkoutOkW s.world) (hrm : rmBenignW s.rmWorld)
    (hpol : opts.exit_on_err = false ∨ noFailW s.world) :
    (main' opts (a :: b2 :: rest) s).1 = .ok () ∧
    ∃ Δ B, stepsTo s (main' opts (a :: b2 :: rest) s).2 Δ ∧
      stageΔ Δ (((findallLog o).reverse).map Prod.fst)
        (if opts.run_checkgitlog = "yes" then (findallLog o).reverse.length else 0) B := by
  have hm : main' opts (a :: b2 :: rest) s =
      bindStep (if opts.repo_dir ≠ "" then
          (if s.chdirFails then (.error (.exited 1),
            emitErr s ("Error: Could not change to repo directory: " ++ opts.repo_dir ++ "\n"))
          else (.ok (), s))
        else (.ok (), s))
        (fun _ s => bindStep (get_commit_list a b2 s)
          (fun ct s => mainLoop opts (compilersOf opts) 0 ct s)) := by
    simp only [main']
  rw [hm]
  have htail : (bindStep (get_commit_list a b2 s)
        (fun ct s => mainLoop opts (compilersOf opts) 0 ct s)).1 = .ok () ∧
      ∃ Δ B, stepsTo s (bindStep (get_commit_list a b2 s)
        (fun ct s => mainLoop opts (compilersOf opts) 0 ct s)).2 Δ ∧
      stageΔ Δ (((findallLog o).reverse).map Prod.fst)
        (if opts.run_checkgitlog = "yes" then (findallLog o).reverse.length else 0) B := by
    obtain ⟨hok, Δ₁, hst, hΔ⟩ := get_commit_list_completes a b2 s o hq
    rw [bindStep_ok _ _ ((findallLog o).reverse) hok]
    obtain ⟨hok2, Δ₂, B, hst2, hΔ2⟩ := mainLoop_completes opts (compilersOf opts) j hj
      ((findallLog o).reverse) 0 _
      (noLaunchW_of_stepsTo hst hnl) (checkoutOkW_of_stepsTo hst hco)
      (rmBenignW_of_stepsTo hst hrm) (polW_of_stepsTo hst hpol)
    refine ⟨hok2, Δ₁ ++ Δ₂, B, stepsTo_trans hst hst2, ?_⟩
    have h9 := stageΔ_append hΔ hΔ2
    simpa using h9
  by_cases hrd : opts.repo_dir = ""
  · rw [if_neg (by simp [hrd]), bindStep_ok _ _ () rfl]
    exact htail
  · rw [if_pos hrd, if_neg (by simp [hch]), bindStep_ok _ _ () rfl]
    exact htail

/-- C3: with the exit-on-error policy disabled and no fatal condition (the
range query resolves, every checkout succeeds, no launch failures, cleanup
failures are at most missing-directory), the run completes with exit code 0
no matter which and how many checks fail: every resolved revision is checked
out in oldest-first order, the message-style check runs once per revision
when enabled, and every failing check's captured output is reported on
stderr. -/
theorem continue_on_error_processes_all_revisions (opts : Opts) (a b2 : String)
    (rest : List String) (s : ExecState) (j o : String)
    (hexit : opts.exit_on_err = false) (hj : opts.num_jobs = .str j)
    (h0 : s.trace = []) (hch : s.chdirFails = false)
    (hq : s.world s.counter (gitLogCmd a b2) = .ok o)
    (hnl : noLaunchW s.world) (hco : checkoutOkW s.world) (hrm : rmBenignW s.rmWorld) :
    (main' opts (a :: b2 :: rest) s).1 = .ok () ∧
    exitCode (main' opts (a :: b2 :: rest) s).1 = 0 ∧
    checkoutsOf (main' opts (a :: b2 :: rest) s).2.trace =
      ((findallLog o).reverse).map Prod.fst ∧
    cglCountOf (main' opts (a :: b2 :: rest) s).2.trace =
      (if opts.run_checkgitlog = "yes" then (findallLog o).reverse.length else 0) ∧
    failReported (main' opts (a :: b2 :: rest) s).2.trace := by
  obtain ⟨hok, Δ, B, hst, hΔ⟩ :=
    main_completes opts a b2 rest s j hj o hch hq hnl hco hrm (.inl hexit)
  have htr : (main' opts (a :: b2 :: rest) s).2.trace = Δ := by
    rw [hst.2.2.2, h0, List.nil_append]
  rw [hok, htr]
  exact ⟨rfl, rfl, hΔ.1, hΔ.2.1, hΔ.2.2.2⟩

/-- World for the C3 witness: the message-style check always fails, all other
commands (including both checkouts of a two-commit range) succeed. -/
def c3World : Nat → List String → CmdResult := fun _ cmd =>
  if cmd = checkGitLogCmd then .fail 1 "style error"
  else .ok "h2 second\nh1 first"

/-- Closed instance of the C3 theorem: a two-commit range whose message-style
check fails on both commits still finishes with result ok (exit code 0). -/
theorem continue_on_error_processes_all_revisions_witness :
    (main' { defaultOpts "/repo" with num_jobs := .str "4" } ["a", "b"]
      (mkInit c3World rmOkWorld)).1 = .ok () :=
  (continue_on_error_processes_all_revisions
    { defaultOpts "/repo" with num_jobs := .str "4" } "a" "b" []
    (mkInit c3World rmOkWorld) "4" "h2 second\nh1 first"
    rfl rfl rfl rfl rfl
    (by
      intro k c
      by_cases hc : c = checkGitLogCmd <;> simp [mkInit, c3World, hc])
    (by
      intro k h
      refine ⟨"h2 second\nh1 first", ?_⟩
      simp [mkInit, c3World, checkGitLogCmd])
    (by
      intro k d en h
      simp [mkInit, rmOkWorld] at h)).1

/-! ### Parsing of the log output: well-formed `%H %s` lines -/

lemma takeWhile_append_all {α : Type} (p : α → Bool) :
    ∀ (a b : List α), (∀ c ∈ a, p c = true) → (a ++ b).takeWhile p = a ++ b.takeWhile p := by
  intro a
  induction a with
  | nil => intro b _; rfl
  | cons c a ih =>
    intro b h
    have hc := h c (by simp)
    simp [List.takeWhile, hc]
    exact ih b (fun c2 hc2 => h c2 (by simp [hc2]))

lemma dropWhile_append_all {α : Type} (p : α → Bool) :
    ∀ (a b : List α), (∀ c ∈ a, p c = true) → (a ++ b).dropWhile p = b.dropWhile p := by
  intro a
  induction a with
  | nil => intro b _; rfl
  | cons c a ih =>
    intro b h
    have hc := h c (by simp)
    simp [List.dropWhile, hc]
    exact ih b (fun c2 hc2 => h c2 (by simp [hc2]))

lemma splitNl_no_newline : ∀ l : List Char, '\n' ∉ l → splitNl l = [l] := by
  intro l
  induction l with
  | nil => intro _; rfl
  | cons c cs ih =>
    intro h
    have hc : ¬c = '\n' := fun hEq => h (by simp [hEq])
    have hcs := ih (fun hm => h (by simp [hm]))
    simp [splitNl, hc, hcs]

lemma splitNl_append_newline : ∀ (l t : List Char), '\n' ∉ l →
    splitNl (l ++ '\n' :: t) = l :: splitNl t := by
  intro l
  induction l with
  | nil => intro t _; simp [splitNl]
  | cons c cs ih =>
    intro t h
    have hc : ¬c = '\n' := fun hEq => h (by simp [hEq])
    have hcs := ih t (fun hm => h (by simp [hm]))
    simp [splitNl, hc, hcs]

/-- Join lines with newlines (inverse of `splitNl` on newline-free lines). -/
def joinNl : List (List Char) → List Char
  | [] => []
  | [l] => l
  | l :: l2 :: ls => l ++ '\n' :: joinNl (l2 :: ls)

lemma splitNl_joinNl : ∀ ls : List (List Char), ls ≠ [] → (∀ l ∈ ls, '\n' ∉ l) →
    splitNl (joinNl ls) = ls := by
  intro ls
  induction ls with
  | nil => intro h _; exact absurd rfl h
  | cons l ls ih =>
    intro _ h
    cases ls with
    | nil => exact splitNl_no_newline l (h l (by simp))
    | cons l2 ls2 =>
      have h2 : splitNl (l ++ '\n' :: joinNl (l2 :: ls2)) = l :: splitNl (joinNl (l2 :: ls2)) :=
        splitNl_append_newline l _ (h l (by simp))
      have h3 := ih (by simp) (fun l3 hl3 => h l3 (by simp [hl3]))
      simp [joinNl, h2, h3]

/-- The raw log line a revision pair prints as (`%H %s`). -/
def lineOf (p : String × String) : List Char := p.1.toList ++ ' ' :: p.2.toList

/-- A well-formed log entry: nonempty whitespace-free hash, newline-free
subject. -/
def goodPair (p : String × String) : Prop :=
  p.1.toList ≠ [] ∧ (∀ c ∈ p.1.toList, pySpace c = false) ∧ '\n' ∉ p.2.toList

lemma lineOf_no_newline (p : String × String) (hp : goodPair p) : '\n' ∉ lineOf p := by
  intro hm
  rcases List.mem_append.mp hm with hm2 | hm2
  · have := hp.2.1 _ hm2
    simp [pySpace] at this
  · rcases hm2 with _ | hm3
    · exact hp.2.2 (by assumption)

lemma mk_toList (s : String) : String.mk s.toList = s := rfl

lemma findallLines_wellformed : ∀ ps : List (String × String), (∀ p ∈ ps, goodPair p) →
    findallLines (ps.map lineOf) = ps := by
  intro ps
  induction ps with
  | nil => intro _; rfl
  | cons p ps ih =>
    intro h
    have hp := h p (by simp)
    have htok : (lineOf p).takeWhile (fun c => !pySpace c) = p.1.toList := by
      rw [lineOf, takeWhile_append_all _ _ _ (fun c hc => by simp [hp.2.1 c hc])]
      simp [List.takeWhile, pySpace]
    have hrest : (lineOf p).dropWhile (fun c => !pySpace c) = ' ' :: p.2.toList := by
      rw [lineOf, dropWhile_append_all _ _ _ (fun c hc => by simp [hp.2.1 c hc])]
      simp [List.dropWhile, pySpace]
    have hne : (p.1.toList.isEmpty) = false := by
      cases hl : p.1.toList with
      | nil => exact absurd hl hp.1
      | cons c cs => simp
    have hstep : findallLines (lineOf p :: List.map lineOf ps) =
        (String.mk p.1.toList, String.mk p.2.toList) :: findallLines (List.map lineOf ps) := by
      conv_lhs => unfold findallLines
      rw [htok, hrest]
      simp [hne]
      exact hp.1
    rw [List.map_cons, hstep, mk_toList, mk_toList, ih (fun q hq => h q (by simp [hq]))]

lemma findallLog_joined (ps : List (String × String)) (hps : ∀ p ∈ ps, goodPair p)
    (o : String) (ho : o.toList = joinNl (ps.map lineOf)) :
    findallLog o = ps := by
  cases ps with
  | nil =>
    have h0 : o.toList = [] := by rw [ho]; rfl
    rw [findallLog, h0]
    rfl
  | cons p ps2 =>
    rw [findallLog, ho, splitNl_joinNl _ (by simp) ?_]
    · exact findallLines_wellformed _ hps
    · intro l hl
      obtain ⟨q, hq, hlq⟩ := List.mem_map.mp hl
      rw [← hlq]
      exact lineOf_no_newline q (hps q hq)

/-- C1: when the log query returns the newest-first well-formed `%H %s` lines
of revisions `ps`, the resolver hands the pipeline exactly `ps.reverse`
(oldest first), and on a run without failures the revisions are checked out
in exactly that order — no other reordering is ever applied. -/
theorem commit_range_resolved_oldest_first (opts : Opts) (a b2 : String)
    (rest : List String) (s : ExecState) (j o : String) (ps : List (String × String))
    (hj : opts.num_jobs = .str j) (h0 : s.trace = []) (hch : s.chdirFails = false)
    (hq : s.world s.counter (gitLogCmd a b2) = .ok o)
    (hps : ∀ p ∈ ps, goodPair p) (ho : o.toList = joinNl (ps.map lineOf))
    (hnl : noLaunchW s.world) (hco : checkoutOkW s.world) (hrm : rmBenignW s.rmWorld)
    (hnf : noFailW s.world) :
    (get_commit_list a b2 s).1 = .ok ps.reverse ∧
    checkoutsOf (main' opts (a :: b2 :: rest) s).2.trace = ps.reverse.map Prod.fst := by
  have hparse : findallLog o = ps := findallLog_joined ps hps o ho
  constructor
  · obtain ⟨hres, _⟩ := get_commit_list_completes a b2 s o hq
    rw [hres, hparse]
  · obtain ⟨hok, Δ, B, hst, hΔ⟩ :=
      main_completes opts a b2 rest s j hj o hch hq hnl hco hrm (.inr hnf)
    have htr : (main' opts (a :: b2 :: rest) s).2.trace = Δ := by
      rw [hst.2.2.2, h0, List.nil_append]
    rw [htr, hΔ.1, hparse]

/-- Closed instance of the C1 theorem: a two-commit range, newest first in
the log output, is resolved and checked out oldest first. -/
theorem commit_range_resolved_oldest_first_witness :
    (get_commit_list "a" "b" (mkInit (allOkWorld "h2 second subject\nh1 first subject") rmOkWorld)).1 =
      .ok [("h1", "first subject"), ("h2", "second subject")] ∧
    checkoutsOf (main' { defaultOpts "/repo" with num_jobs := .str "4" } ["a", "b"]
      (mkInit (allOkWorld "h2 second subject\nh1 first subject") rmOkWorld)).2.trace =
      ["h1", "h2"] :=
  commit_range_resolved_oldest_first { defaultOpts "/repo" with num_jobs := .str "4" }
    "a" "b" [] (mkInit (allOkWorld "h2 second subject\nh1 first subject") rmOkWorld)
    "4" "h2 second subject\nh1 first subject"
    [("h2", "second subject"), ("h1", "first subject")]
    rfl rfl rfl rfl
    (by
      intro p hp
      simp at hp
      rcases hp with h | h <;> rw [h] <;> exact ⟨by decide, by decide, by decide⟩)
    (by decide)
    (by intro k c; simp [mkInit, allOkWorld])
    (by intro k h; exact ⟨_, rfl⟩)
    (by intro k d en h; simp [mkInit, rmOkWorld] at h)
    (by intro k c rc o2; simp [mkInit, allOkWorld])

lemma testBuildCmd_getLast (jarg bt ar : String) :
    (testBuildCmd jarg bt ar).getLast? = some ar := by
  rw [testBuildCmd, List.getLast?_concat]

/-- C4: with both toolchains enabled, main plans the compiler list
`[gcc, clang]`; a completed build stage under thoroughness `full` issues
exactly these 4 build invocations in order [gcc/default, gcc/shared,
clang/default, clang/shared]; under `short` the same 4 configurations in the
same order with only the extra `-s` flag; for any compiler list the
thoroughness level changes neither the number nor the order (trailing
arch string) of the planned configurations; and with thoroughness `skip` no
run ever issues a single build invocation. -/
theorem build_matrix_four_configs_and_skip :
    (∀ opts : Opts, opts.use_gcc = "yes" → opts.use_clang = "yes" →
      compilersOf opts = ["gcc", "clang"]) ∧
    (∀ (b : Bool) (j : String) (s : ExecState), noLaunchW s.world →
      (b = false ∨ noFailW s.world) →
      ∃ Δ, stepsTo s (check_builds b ["gcc", "clang"] "full" (.str j) b s).2 Δ ∧
        buildCmdsOf Δ =
          [["devtools/test-build.sh", "-j" ++ j, "x86_64-native-linuxapp-gcc"],
           ["devtools/test-build.sh", "-j" ++ j, "x86_64-native-linuxapp-gcc+shared"],
           ["devtools/test-build.sh", "-j" ++ j, "x86_64-native-linuxapp-clang"],
           ["devtools/test-build.sh", "-j" ++ j, "x86_64-native-linuxapp-clang+shared"]]) ∧
    (∀ (b : Bool) (j : String) (s : ExecState), noLaunchW s.world →
      (b = false ∨ noFailW s.world) →
      ∃ Δ, stepsTo s (check_builds b ["gcc", "clang"] "short" (.str j) b s).2 Δ ∧
        buildCmdsOf Δ =
          [["devtools/test-build.sh", "-j" ++ j, "-s", "x86_64-native-linuxapp-gcc"],
           ["devtools/test-build.sh", "-j" ++ j, "-s", "x86_64-native-linuxapp-gcc+shared"],
           ["devtools/test-build.sh", "-j" ++ j, "-s", "x86_64-native-linuxapp-clang"],
           ["devtools/test-build.sh", "-j" ++ j, "-s", "x86_64-native-linuxapp-clang+shared"]]) ∧
    (∀ (jarg : String) (cs : List String),
      (expectedBuildCmds "full" jarg cs).length = (expectedBuildCmds "short" jarg cs).length ∧
      (expectedBuildCmds "full" jarg cs).map (fun c => c.getLast?) =
        (expectedBuildCmds "short" jarg cs).map (fun c => c.getLast?)) ∧
    (∀ (opts : Opts) (args : List String) (s : ExecState), s.trace = [] →
      opts.build_type = "skip" → buildCmdsOf (main' opts args s).2.trace = []) := by
  refine ⟨?_, ?_, ?_, ?_, ?_⟩
  · intro opts h1 h2
    simp [compilersOf, h1, h2]
  · intro b j s hnl hpol
    obtain ⟨hok, Δ, hst, hΔ⟩ := check_builds_completes b ["gcc", "clang"] "full" j b s hnl hpol
    refine ⟨Δ, hst, ?_⟩
    rw [hΔ.2.2.1]
    simp [expectedBuildCmds, testBuildCmd]
  · intro b j s hnl hpol
    obtain ⟨hok, Δ, hst, hΔ⟩ := check_builds_completes b ["gcc", "clang"] "short" j b s hnl hpol
    refine ⟨Δ, hst, ?_⟩
    rw [hΔ.2.2.1]
    simp [expectedBuildCmds, testBuildCmd]
  · intro jarg cs
    induction cs with
    | nil => exact ⟨rfl, rfl⟩
    | cons c rest ih =>
      refine ⟨?_, ?_⟩
      · simp [expectedBuildCmds]
        exact ih.1
      · simp [expectedBuildCmds, testBuildCmd_getLast]
        exact ih.2
  · intro opts args s h0 hskip
    obtain ⟨Δ, h1, _, h3⟩ := main_stageOut opts args s
    rw [h1.2.2.2, h0, List.nil_append]
    exact h3 hskip
